import Mathlib

/-!
Verification development for the semantic-analysis core of the robotcode
Robot Framework language server.

The definitions below are a shallow embedding of the Python sources under
`src/robotcode/language_server/robotframework/diagnostics/` (mainly
`namespace.py` and `entities.py`).  Pure functions become Lean functions,
the mutable `Namespace` object becomes explicit state passing, Python
exceptions become `Except`/`Option` values, and the concurrent
gather-then-commit import resolution becomes a pure resolution map followed
by a sequential commit fold.  Definitions whose Python source is not part
of the provided sources (for example `library_doc.py`) are modelled from
the specification and marked as such in their doc comments.
-/

namespace RobotCode

/-! ## LSP-like primitive data (lsp_types) -/

/-- 0-based position, as in `lsp_types.Position`. -/
structure Pos where
  line : Int
  character : Int
deriving DecidableEq, Repr

/-- Half-open range, as in `lsp_types.Range`. -/
structure Rng where
  start : Pos
  stop : Pos
deriving DecidableEq, Repr

/-- `Range.zero()` from the sources. -/
def rngZero : Rng := ⟨⟨0, 0⟩, ⟨0, 0⟩⟩

/-- LSP diagnostic severities used by the namespace code. -/
inductive Severity where
  | error
  | warning
  | information
  | hint
deriving DecidableEq, Repr

/-- `DiagnosticRelatedInformation` as used in `namespace.py`. -/
structure RelatedInfo where
  uri : String
  range : Rng
  message : String
deriving DecidableEq, Repr

/-- LSP diagnostic, with the fields `namespace.py` populates. -/
structure Diagnostic where
  range : Rng
  message : String
  severity : Severity
  source : String
  code : Option String := none
  related : List RelatedInfo := []
deriving DecidableEq, Repr

/-- `DIAGNOSTICS_SOURCE_NAME = "robotcode.namespace"` (namespace.py). -/
def DIAGNOSTICS_SOURCE_NAME : String := "robotcode.namespace"

/-- Models `robotcode.utils.uri.Uri.from_path`: renders a filesystem path as
a file URI string.  Treated as an opaque injective rendering; no claim
inspects its output. -/
def uriOfPath (p : String) : String := "file://" ++ p

/-! ## Matcher primitives

`robot.utils.normalizing.normalize(string, ignore)` (third-party Robot
Framework, called by `entities.py` and `library_doc.py`) removes all
whitespace (`spaceless=True`), lowercases (`caseless=True`), and removes
every character of `ignore`. -/

/-- Robot Framework's `normalize` with an `ignore` character list:
remove whitespace, lowercase, drop ignored characters. -/
def rfNormalize (ignore : List Char) (s : String) : String :=
  String.mk (((s.data.filter (fun c => ¬ c.isWhitespace)).map Char.toLower).filter
    (fun c => ¬ c ∈ ignore))

/-- Robot's `eq` from `robot.utils.match` with the default `ignore=()`:
caseless and spaceless comparison.  Used by `KeywordFinder.find_keywords`
for owner names and by `_get_keyword_based_on_search_order`. -/
def matchEq (a b : String) : Bool := rfNormalize [] a = rfNormalize [] b

/-- Canonical keyword-name equality.  Modelled from the spec:
`library_doc.py` (not part of the sources) wraps keyword names in a
`KeywordMatcher` that compares `normalize(name, ignore="_")`, i.e.
case-insensitive and ignoring spaces and underscores (spec §4.1). -/
def kwEq (a b : String) : Bool := rfNormalize ['_'] a = rfNormalize ['_'] b

/-- Variable-name normalization used by `VariableMatcher` (entities.py):
`normalize(base, ignore="_")`. -/
def varNormalize (s : String) : String := rfNormalize ['_'] s

/-! ## VariableMatcher (entities.py lines 81-120)

`VariableMatcher.__init__` extracts the base of the first variable
expression via Robot's `VariableSearcher("$@&%", ignore_errors=True)` and
raises `InvalidVariableError` when there is none; `__eq__` compares the
normalized base names; `__hash__` hashes the *raw* spelling `self.name`. -/

/-- Scans for the matching closing brace, counting nested braces, and
returns the enclosed text.  Models the brace matching of Robot's
`VariableSearcher`. -/
def matchBrace : List Char → Nat → List Char → Option (List Char)
  | [], _, _ => none
  | c :: rest, depth, acc =>
    if c = '}' then
      if depth = 0 then some acc.reverse else matchBrace rest (depth - 1) (c :: acc)
    else if c = '{' then matchBrace rest (depth + 1) (c :: acc)
    else matchBrace rest depth (c :: acc)

/-- Finds the first `X{...}` with `X` among the identifier characters and
returns the brace-enclosed base, like `VariableSearcher(identifiers).search(name).base`. -/
def searchVarBase (ids : List Char) (s : String) : Option String :=
  go s.data
where
  go : List Char → Option String
    | [] => none
    | [_] => none
    | a :: b :: rest =>
      if a ∈ ids ∧ b = '{' then (matchBrace rest 0 []).map String.mk
      else go (b :: rest)

/-- `entities.VariableMatcher`: raw name, extracted base, normalized base. -/
structure VariableMatcher where
  name : String
  base : String
  normalizedName : String
deriving DecidableEq, Repr

/-- `VariableMatcher.__init__`; `none` models the raised
`InvalidVariableError` when the searcher finds no base. -/
def mkVariableMatcher (name : String) : Option VariableMatcher :=
  (searchVarBase ['$', '@', '&', '%'] name).map
    (fun b => ⟨name, b, varNormalize b⟩)

/-- `VariableMatcher.__eq__` on two matchers: normalized base names coincide. -/
def matcherEq (a b : VariableMatcher) : Bool := a.normalizedName = b.normalizedName

/-- The value `VariableMatcher.__hash__` feeds to Python's string hash:
`hash(self.name)`, i.e. the raw spelling.  Python's string hashing
distinguishes distinct strings except for accidental collisions, so two
matchers hash equal (generically) iff these key strings are equal. -/
def hashKey (m : VariableMatcher) : String := m.name

/-! ## Python dict keyed by VariableMatcher

CPython dictionary lookup probes by hash and confirms with `__eq__`; with
the generic string-hash model above, a stored key is found iff its raw
spelling equals the probe's raw spelling and the two matchers compare
equal. -/

/-- A variable definition, as much of `entities.VariableDefinition` as the
claims consume: identity is (name, source, position). -/
structure VariableDefinition where
  name : String
  source : String := ""
  lineNo : Int := 0
  colOffset : Int := 0
deriving DecidableEq, Repr

/-- Association-list model of a Python `Dict[VariableMatcher, VariableDefinition]`. -/
abbrev VarDict := List (VariableMatcher × VariableDefinition)

/-- CPython `key in dict.keys()`: hash probe (raw names equal, generically)
then `__eq__`. -/
def pyDictContains (d : VarDict) (k : VariableMatcher) : Bool :=
  d.any (fun p => hashKey p.1 = hashKey k ∧ matcherEq p.1 k)

/-- CPython `dict.get(key)`: hash probe then `__eq__`. -/
def pyDictGet (d : VarDict) (k : VariableMatcher) : Option VariableDefinition :=
  (d.find? (fun p => hashKey p.1 = hashKey k ∧ matcherEq p.1 k)).map (·.2)

/-! ## Library documentation model

Modelled from the spec: `library_doc.py` is not among the provided sources.
Spec §3: a `LibraryDoc` carries a source path, name, an ordered map of
keywords keyed by canonical name, exported variables, a listener flag and
errors (message, optional source, optional line, type tag). -/

/-- Keyword documentation; the claims consume its name and owning library. -/
structure KeywordDoc where
  name : String
  libname : String := ""
deriving DecidableEq, Repr

/-- One `LibraryDoc` error: message, optional source, optional line, type tag. -/
structure LibDocError where
  message : String
  source : Option String := none
  lineNo : Option Int := none
  typeName : String := "Error"
deriving DecidableEq, Repr

/-- Modelled from the spec: lookup in the ordered keyword map of a
`LibraryDoc` is by canonical keyword-name equality (spec §3, §4.1). -/
def kwStoreGet (ks : List (String × KeywordDoc)) (name : String) : Option KeywordDoc :=
  (ks.find? (fun p => kwEq p.1 name)).map (·.2)

/-- `LibraryDoc` with the fields `namespace.py` reads. -/
structure LibraryDoc where
  name : String := ""
  source : Option String := none
  lineNo : Int := -1
  keywords : List (String × KeywordDoc) := []
  hasListener : Bool := false
  errors : Option (List LibDocError) := none
  varDefs : List VariableDefinition := []
deriving DecidableEq, Repr

/-! ## Imports (entities.py) and namespace entries (namespace.py lines 318-345) -/

/-- The part of an `Import` statement the namespace logic reads: optional
name, the `range()` of the import statement, and the declaring file. -/
structure ImportInfo where
  name : Option String
  rangeVal : Rng := rngZero
  source : String := ""
deriving DecidableEq, Repr

/-- The three import variants of `entities.py`. -/
inductive Import where
  | lib (info : ImportInfo) (args : List String) (aliasName : Option String)
  | res (info : ImportInfo)
  | vars (info : ImportInfo) (args : List String)
deriving DecidableEq, Repr

/-- Shared accessor for the statement info of an import. -/
def Import.info : Import → ImportInfo
  | .lib i _ _ => i
  | .res i => i
  | .vars i _ => i

/-- `LibraryEntry` (namespace.py line 318). -/
structure LibraryEntry where
  name : String
  importName : String
  libraryDoc : LibraryDoc
  args : List String := []
  aliasName : Option String := none
  importRange : Rng := rngZero
  importSource : String := ""
deriving DecidableEq, Repr

/-- `ResourceEntry` extends `LibraryEntry` with the resource's own imports
and variables. -/
structure ResourceEntry extends LibraryEntry where
  imports : List Import := []
  varDefs : List VariableDefinition := []
deriving DecidableEq, Repr

/-- `VariablesEntry` extends `LibraryEntry` with the exported variables. -/
structure VariablesEntry extends LibraryEntry where
  varDefs : List VariableDefinition := []
deriving DecidableEq, Repr

/-- Python truthiness-based `a or b` for an optional/empty string. -/
def orTruthy (a : Option String) (b : String) : String :=
  match a with
  | some s => if s = "" then b else s
  | none => b

/-- The map key `alias or name or import_name` used throughout `namespace.py`. -/
def entryKey (aliasName : Option String) (name importName : String) : String :=
  orTruthy aliasName (if name = "" then importName else name)

/-- Python `str(tuple_of_strings)`, used by `LibraryEntry.__str__`. -/
def pyArgsRepr : List String → String
  | [] => "()"
  | [a] => "('" ++ a ++ "',)"
  | args => "(" ++ String.intercalate ", " (args.map (fun a => "'" ++ a ++ "'")) ++ ")"

/-- `LibraryEntry.__str__` (namespace.py lines 328-334). -/
def entryStr (e : LibraryEntry) : String :=
  e.importName
    ++ (if e.args = [] then "" else "  " ++ pyArgsRepr e.args)
    ++ (match e.aliasName with
        | some a => if a = "" then "" else "  WITH NAME  " ++ a
        | none => "")

/-! ## KeywordFinder (namespace.py lines 1076-1288) -/

/-- `DiagnosticsEntry` collected by the finder. -/
structure DiagnosticsEntry where
  message : String
  severity : Severity
  code : Option String := none
deriving DecidableEq, Repr

/-- Result of one finder step: a hit, a miss, or the `CancelSearchError`
sentinel that aborts the whole search. -/
inductive FRes where
  | ok (k : Option KeywordDoc)
  | cancel
deriving DecidableEq, Repr

/-- The data of the namespace that `KeywordFinder` reads: the file's own
library doc, the ordered libraries and resources maps, and the configured
search order. -/
structure FinderCtx where
  selfLibraryDoc : LibraryDoc
  libraries : List (String × LibraryEntry) := []
  resources : List (String × ResourceEntry) := []
  searchOrder : List String := []

/-- `v.alias or v.name` as in `find_keywords` and the search-order filter. -/
def aliasOrName (e : LibraryEntry) : String := orTruthy e.aliasName e.name

/-- `KeywordFinder._get_keyword_from_self`. -/
def getKeywordFromSelf (F : FinderCtx) (name : String) : Option KeywordDoc :=
  kwStoreGet F.selfLibraryDoc.keywords name

/-- `KeywordFinder._yield_owner_and_kw_names`: every split of the dotted
name into a non-empty owner part and the remaining keyword part. -/
def yieldOwnerAndKwNames (fullName : String) : List (String × String) :=
  let toks := fullName.splitOn "."
  ((List.range toks.length).drop 1).map
    (fun i => (String.intercalate "." (toks.take i), String.intercalate "." (toks.drop i)))

/-- `KeywordFinder.find_keywords`: all library then resource entries whose
alias-or-name matches the owner and whose keywords contain the name. -/
def findKeywords (F : FinderCtx) (ownerName kwName : String) :
    List (LibraryEntry × KeywordDoc) :=
  (F.libraries.map (·.2) ++ F.resources.map (fun p => p.2.toLibraryEntry)).filterMap
    (fun v =>
      if matchEq (aliasOrName v) ownerName then
        (kwStoreGet v.libraryDoc.keywords kwName).map (fun k => (v, k))
      else none)

/-- `KeywordFinder._create_multiple_keywords_found_message`. -/
def createMultipleKeywordsMsg (name : String) (found : List (LibraryEntry × KeywordDoc))
    (implicit : Bool) : String :=
  let err := "Multiple keywords with name '" ++ name ++ "' found"
  let err := if implicit then err ++ ". Give the full name of the keyword you want to use" else err
  let names := (found.map (fun e => aliasOrName e.1 ++ "." ++ e.2.name)).mergeSort
    (fun a b => decide (a ≤ b))
  String.intercalate "\n    " ((err ++ ":") :: names)

/-- `KeywordFinder._get_explicit_keyword`. -/
def getExplicitKeyword (F : FinderCtx) (name : String) : FRes × List DiagnosticsEntry :=
  let found := (yieldOwnerAndKwNames name).flatMap (fun p => findKeywords F p.1 p.2)
  if found.length > 1 then
    (.cancel, [⟨createMultipleKeywordsMsg name found false, .error, some "KeywordError"⟩])
  else (.ok (found.head?.map (·.2)), [])

/-- `KeywordFinder._get_keyword_based_on_search_order`: the first
search-order name matching some entry wins; otherwise all entries remain. -/
def getKeywordBasedOnSearchOrder (so : List String)
    (entries : List (LibraryEntry × KeywordDoc)) : List (LibraryEntry × KeywordDoc) :=
  match so.findSome? (fun libname => entries.find? (fun e => matchEq libname (aliasOrName e.1))) with
  | some e => [e]
  | none => entries

/-- The resource entries containing the keyword, in map order (the list
comprehension in `_get_keyword_from_resource_files`). -/
def resourcesWithKeyword (F : FinderCtx) (name : String) : List (LibraryEntry × KeywordDoc) :=
  F.resources.filterMap
    (fun p => (kwStoreGet p.2.libraryDoc.keywords name).map (fun k => (p.2.toLibraryEntry, k)))

/-- `KeywordFinder._get_keyword_from_resource_files`. -/
def getKeywordFromResourceFiles (F : FinderCtx) (name : String) : FRes × List DiagnosticsEntry :=
  let found := resourcesWithKeyword F name
  if found.isEmpty then (.ok none, [])
  else
    let found := if found.length > 1 then getKeywordBasedOnSearchOrder F.searchOrder found else found
    if found.length = 1 then (.ok (found.head?.map (·.2)), [])
    else (.cancel, [⟨createMultipleKeywordsMsg name found true, .error, some "KeywordError"⟩])

/-- Modelled from Robot Framework's `robot.libraries.STDLIBS` (third-party
constant imported by `_filter_stdlib_runner`). -/
def STDLIBS : List String :=
  ["BuiltIn", "Collections", "DateTime", "Dialogs", "Easter", "OperatingSystem",
   "Process", "Remote", "Reserved", "Screenshot", "String", "Telnet", "XML"]

/-- `STDLIBS - {"Remote"}` as computed in `_filter_stdlib_runner`. -/
def stdlibsWithoutRemote : List String := STDLIBS.filter (· ≠ "Remote")

/-- `KeywordFinder._create_custom_and_standard_keyword_conflict_warning_message`. -/
def createConflictMsg (custom standard : LibraryEntry × KeywordDoc) : String :=
  let customWith := match custom.1.aliasName with
    | some a => " imported as '" ++ a ++ "'"
    | none => ""
  let standardWith := match standard.1.aliasName with
    | some a => " imported as '" ++ a ++ "'"
    | none => ""
  "Keyword '" ++ standard.2.name ++ "' found both from a custom test library '"
    ++ custom.1.name ++ "'" ++ customWith ++ " and a standard library '"
    ++ standard.2.name ++ "'" ++ standardWith
    ++ ". The custom keyword is used. To select explicitly, and to get "
    ++ "rid of this warning, use either '" ++ aliasOrName custom.1 ++ "." ++ custom.2.name
    ++ "' or '" ++ aliasOrName standard.1 ++ "." ++ standard.2.name ++ "'."

/-- `KeywordFinder._filter_stdlib_runner`: when exactly one of the two
entries is a standard library, warn and keep the custom one. -/
def filterStdlibRunner (e1 e2 : LibraryEntry × KeywordDoc) :
    List (LibraryEntry × KeywordDoc) × List DiagnosticsEntry :=
  if e1.1.name ∈ stdlibsWithoutRemote then
    ([e2], [⟨createConflictMsg e2 e1, .warning, some "KeywordError"⟩])
  else if e2.1.name ∈ stdlibsWithoutRemote then
    ([e1], [⟨createConflictMsg e1 e2, .warning, some "KeywordError"⟩])
  else ([e1, e2], [])

/-- The library entries containing the keyword, in map order (the list
comprehension in `_get_keyword_from_libraries`). -/
def libsWithKeyword (F : FinderCtx) (name : String) : List (LibraryEntry × KeywordDoc) :=
  F.libraries.filterMap
    (fun p => (kwStoreGet p.2.libraryDoc.keywords name).map (fun k => (p.2, k)))

/-- `KeywordFinder._get_keyword_from_libraries`. -/
def getKeywordFromLibraries (F : FinderCtx) (name : String) : FRes × List DiagnosticsEntry :=
  let found := libsWithKeyword F name
  if found.isEmpty then (.ok none, [])
  else
    let found := if found.length > 1 then getKeywordBasedOnSearchOrder F.searchOrder found else found
    let step := match found with
      | [a, b] => filterStdlibRunner a b
      | _ => (found, [])
    if step.1.length = 1 then (.ok (step.1.head?.map (·.2)), step.2)
    else (.cancel, step.2 ++ [⟨createMultipleKeywordsMsg name step.1 true, .error, some "KeywordError"⟩])

/-- `KeywordFinder._get_implicit_keyword`: resource files first, then
libraries. -/
def getImplicitKeyword (F : FinderCtx) (name : String) : FRes × List DiagnosticsEntry :=
  match getKeywordFromResourceFiles F name with
  | (.cancel, d) => (.cancel, d)
  | (.ok (some k), d) => (.ok (some k), d)
  | (.ok none, d) =>
    let r := getKeywordFromLibraries F name
    (r.1, d ++ r.2)

/-- The BDD words checked by `_get_bdd_style_keyword`, each with its single
trailing space, in source order. -/
def bddWords : List String := ["given ", "when ", "then ", "and ", "but "]

/-- Python `name.lower()`. -/
def lowerStr (s : String) : String := String.mk (s.data.map Char.toLower)

/-- `KeywordFinder._get_bdd_style_keyword` reduced to its stripping part:
the remainder after the first matching BDD word, if any. -/
def stripBdd (name : String) : Option String :=
  bddWords.findSome?
    (fun w => if w.data.isPrefixOf (lowerStr name).data then some (name.drop w.length) else none)

/-- Stripping a non-empty matched word strictly shortens the name. -/
theorem dropLenLt (name w : String) (h : w.data.isPrefixOf (lowerStr name).data = true)
    (hw : 0 < w.length) : (name.drop w.length).length < name.length := by
  have hpre : w.data <+: (lowerStr name).data := by
    exact List.isPrefixOf_iff_prefix.mp h
  have hle : w.data.length ≤ (lowerStr name).data.length := hpre.length_le
  have hlen : (lowerStr name).data.length = name.data.length := by
    simp [lowerStr]
  have hle' : w.length ≤ name.length := by
    rw [hlen] at hle
    exact hle
  have hdrop : (name.drop w.length).length = name.length - w.length := by
    rw [String.drop_eq]
    exact List.length_drop _ _
  omega

/-- The BDD remainder is strictly shorter than the original name. -/
theorem stripBdd_length_lt (name rest : String) (h : stripBdd name = some rest) :
    rest.length < name.length := by
  obtain ⟨w, hw, hfw⟩ := List.exists_of_findSome?_eq_some h
  by_cases hp : w.data.isPrefixOf (lowerStr name).data = true
  · simp only [hp, if_true] at hfw
    cases hfw
    have hwlen : 0 < w.length := by
      have : w = "given " ∨ w = "when " ∨ w = "then " ∨ w = "and " ∨ w = "but " := by
        simpa [bddWords] using hw
      rcases this with rfl | rfl | rfl | rfl | rfl <;> decide
    exact dropLenLt name w hp hwlen
  · simp only [Bool.not_eq_true] at hp
    simp [hp] at hfw

/-- Python `"." in name`, written over the character list so that it
evaluates by kernel reduction. -/
def containsDot (name : String) : Bool := name.data.contains '.'

/-- `KeywordFinder._find_keyword`: self, explicit (when the name contains a
dot), implicit (resources then libraries), then BDD-stripped recursion.
Diagnostics accumulate; `FRes.cancel` models `CancelSearchError`. -/
def findKeywordInner (F : FinderCtx) (name : String) : FRes × List DiagnosticsEntry :=
  if name = "" then
    (.cancel, [⟨"Keyword name cannot be empty.", .error, some "KeywordError"⟩])
  else
    match kwStoreGet F.selfLibraryDoc.keywords name with
    | some k => (.ok (some k), [])
    | none =>
      let step2 := if containsDot name then getExplicitKeyword F name else (.ok none, [])
      match step2 with
      | (.cancel, d2) => (.cancel, d2)
      | (.ok (some k), d2) => (.ok (some k), d2)
      | (.ok none, d2) =>
        match getImplicitKeyword F name with
        | (.cancel, d3) => (.cancel, d2 ++ d3)
        | (.ok (some k), d3) => (.ok (some k), d2 ++ d3)
        | (.ok none, d3) =>
          match hbdd : stripBdd name with
          | some rest =>
            let r4 := findKeywordInner F rest
            (r4.1, d2 ++ d3 ++ r4.2)
          | none => (.ok none, d2 ++ d3)
termination_by name.length
decreasing_by exact stripBdd_length_lt name rest hbdd

/-- The message of the final "not found" diagnostic; `repr(name)` renders a
plain keyword name between single quotes. -/
def noKeywordMsg (name : String) : String := "No keyword with name '" ++ name ++ "' found."

/-- `KeywordFinder.find_keyword` on a fresh cache entry: runs
`_find_keyword`, converts the cancel sentinel to `none`, and records the
"No keyword ... found." error when the search missed without cancelling. -/
def findKeyword (F : FinderCtx) (name : String) : Option KeywordDoc × List DiagnosticsEntry :=
  match findKeywordInner F name with
  | (.cancel, d) => (none, d)
  | (.ok none, d) => (none, d ++ [⟨noKeywordMsg name, .error, some "KeywordError"⟩])
  | (.ok (some k), d) => (some k, d)

/-! ## Variable resolution (namespace.py lines 586-617) -/

/-- The per-namespace inputs of `Namespace.get_variables`: own variables,
the resource entries and variables entries in map order, command-line and
built-in variables. -/
structure VarCtx where
  ownVariables : List VariableDefinition := []
  resources : List ResourceEntry := []
  commandLine : List VariableDefinition := []
  varsEntries : List VariablesEntry := []
  builtins : List VariableDefinition := []

/-- The candidate chain of `Namespace.get_variables` (lines 596-606): block
locals, own file variables, resource variables in source order, command-line
variables, variables-files in source order, built-in variables. -/
def varChain (ctx : VarCtx) (blockLocals : List VariableDefinition) : List VariableDefinition :=
  blockLocals ++ ctx.ownVariables ++ ctx.resources.flatMap (·.varDefs) ++ ctx.commandLine
    ++ ctx.varsEntries.flatMap (·.varDefs) ++ ctx.builtins

/-- `Namespace.get_variables`: fold the chain into a matcher-keyed dict,
inserting a candidate only when its matcher is not yet a member.  `none`
models the uncaught `InvalidVariableError` raised by `VariableMatcher(...)`
on a malformed name. -/
def getVariables (ctx : VarCtx) (blockLocals : List VariableDefinition) : Option VarDict :=
  (varChain ctx blockLocals).foldl
    (fun acc var => acc.bind (fun d =>
      match mkVariableMatcher var.name with
      | none => none
      | some m => if pyDictContains d m then some d else some (d ++ [(m, var)])))
    (some [])

/-- `Namespace.find_variable`: `get_variables(...).get(VariableMatcher(name))`. -/
def findVariable (ctx : VarCtx) (blockLocals : List VariableDefinition) (name : String) :
    Option (Option VariableDefinition) :=
  match getVariables ctx blockLocals, mkVariableMatcher name with
  | some d, some m => some (pyDictGet d m)
  | _, _ => none

/-! ## Import resolution and commit (namespace.py lines 620-934) -/

/-- A non-fatal Python exception: the type's `__qualname__` and `str(e)`. -/
structure PyExc where
  typeName : String
  message : String
deriving DecidableEq, Repr

/-- The pure behaviour of the imports manager as one namespace observes it:
each resolver returns its value or raises a non-fatal exception.  Fatal
exceptions (cancellation, `SystemExit`, `KeyboardInterrupt`) are excluded:
`_import` re-raises them unchanged and every import-resolution claim
explicitly excludes them. -/
structure ImportsEnv where
  findFile : String → String → Except PyExc String
  libDoc : String → List String → String → Except PyExc LibraryDoc
  resourceDoc : String → String → Except PyExc (LibraryDoc × List Import × List VariableDefinition)
  variablesDoc : String → List String → String → Except PyExc LibraryDoc

/-- A gathered entry awaiting commit. -/
inductive CommitEntry where
  | libE (e : LibraryEntry)
  | resE (e : ResourceEntry)
  | varE (e : VariablesEntry)
deriving DecidableEq, Repr

/-- The outcome of one `_import(value)` task: the entry to commit (or
`none`), plus the diagnostics the task appended while resolving. -/
structure ImportOutcome where
  entry : Option CommitEntry
  diags : List Diagnostic
deriving DecidableEq, Repr

/-- The error diagnostic of the generic `except BaseException` handler at
the end of `_import`: exception message as text, type name as code, at the
import's range. -/
def excDiag (r : Rng) (e : PyExc) : Diagnostic :=
  { range := r, message := e.message, severity := .error,
    source := DIAGNOSTICS_SOURCE_NAME, code := some e.typeName }

/-- Python truthiness of the `errors` attribute: a non-empty list. -/
def errorsTruthy : Option (List LibDocError) → Bool
  | some (_ :: _) => true
  | _ => false

/-- The line used for a libdoc error's related location:
`err.line_no - 1` when known, else the doc's line when non-negative, else 0. -/
def libdocErrLine (docLineNo : Int) (ln : Option Int) : Int :=
  match ln with
  | some l => l - 1
  | none => if docLineNo ≥ 0 then docLineNo else 0

/-- An error diagnostic for one libdoc error at the import's range. -/
def mkLibdocErrDiag (r : Rng) (err : LibDocError) : Diagnostic :=
  { range := r, message := err.message, severity := .error,
    source := DIAGNOSTICS_SOURCE_NAME, code := some err.typeName }

/-- The libdoc-errors block of `_import` (lines 689-748): at top level,
a doc with a source and errors yields one grouped diagnostic for the
errors that carry a source plus one diagnostic per sourceless error;
otherwise every error yields its own diagnostic. -/
def libdocErrorDiags (top : Bool) (r : Rng) (doc : LibraryDoc) : List Diagnostic :=
  if top then
    if doc.source.isSome && errorsTruthy doc.errors then
      let errs := doc.errors.getD []
      (if errs.any (fun e => e.source.isSome) then
        [{ range := r, message := "Import definition contains errors.",
           severity := .error, source := DIAGNOSTICS_SOURCE_NAME,
           related := (errs.filter (fun e => e.source.isSome)).map (fun err =>
             { uri := uriOfPath (err.source.getD ""),
               range := { start := ⟨libdocErrLine doc.lineNo err.lineNo, 0⟩,
                          stop := ⟨libdocErrLine doc.lineNo err.lineNo, 0⟩ },
               message := err.message }) }]
       else [])
      ++ (errs.filter (fun e => e.source = none)).map (mkLibdocErrDiag r)
    else
      match doc.errors with
      | some errs => errs.map (mkLibdocErrDiag r)
      | none => []
  else []

/-- The resolution part of `Namespace._import_imports._import` for one
import: everything before the gathered entries are committed.
`curResources` is the resources map the task observes; at top level that is
the map from before the whole `_import_imports` call, because commits only
happen after the gather completes. -/
def resolveOne (top : Bool) (env : ImportsEnv) (baseDir : String)
    (curResources : List (String × ResourceEntry)) : Import → ImportOutcome
  | .lib info args aliasName =>
    match info.name with
    | none => ⟨none, [excDiag info.rangeVal ⟨"NameSpaceError", "Library setting requires value."⟩]⟩
    | some nm =>
      match env.libDoc nm args baseDir with
      | .error e => ⟨none, [excDiag info.rangeVal e]⟩
      | .ok doc =>
        let entry : LibraryEntry :=
          { name := doc.name, importName := nm, libraryDoc := doc, args := args,
            aliasName := aliasName, importRange := info.rangeVal, importSource := info.source }
        let d1 := if top && decide (doc.errors = none) && doc.keywords.isEmpty && !doc.hasListener then
            [{ range := info.rangeVal,
               message := "Imported library '" ++ nm ++ "' contains no keywords.",
               severity := .warning, source := DIAGNOSTICS_SOURCE_NAME }]
          else []
        ⟨some (.libE entry), d1 ++ libdocErrorDiags top info.rangeVal doc⟩
  | .res info =>
    match info.name with
    | none => ⟨none, [excDiag info.rangeVal ⟨"NameSpaceError", "Resource setting requires value."⟩]⟩
    | some nm =>
      match env.findFile nm baseDir with
      | .error e => ⟨none, [excDiag info.rangeVal e]⟩
      | .ok src =>
        if curResources.any (fun p => decide (p.2.libraryDoc.source = some src)) then ⟨none, []⟩
        else
          match env.resourceDoc nm baseDir with
          | .error e => ⟨none, [excDiag info.rangeVal e]⟩
          | .ok (doc, imps, vars) =>
            let entry : ResourceEntry :=
              { name := doc.name, importName := nm, libraryDoc := doc,
                importRange := info.rangeVal, importSource := info.source,
                imports := imps, varDefs := vars }
            let d1 := if top && !errorsTruthy doc.errors && imps.isEmpty && vars.isEmpty
                && doc.keywords.isEmpty then
                [{ range := info.rangeVal,
                   message := "Imported resource file '" ++ nm ++ "' is empty.",
                   severity := .warning, source := DIAGNOSTICS_SOURCE_NAME }]
              else []
            ⟨some (.resE entry), d1 ++ libdocErrorDiags top info.rangeVal doc⟩
  | .vars info args =>
    match info.name with
    | none => ⟨none, [excDiag info.rangeVal ⟨"NameSpaceError", "Variables setting requires value."⟩]⟩
    | some nm =>
      match env.variablesDoc nm args baseDir with
      | .error e => ⟨none, [excDiag info.rangeVal e]⟩
      | .ok doc =>
        let entry : VariablesEntry :=
          { name := doc.name, importName := nm, libraryDoc := doc, args := args,
            importRange := info.rangeVal, importSource := info.source, varDefs := doc.varDefs }
        ⟨some (.varE entry), libdocErrorDiags top info.rangeVal doc⟩

/-- The mutable core of one namespace during import resolution: its own
source path, the three ordered maps, and the diagnostics list. -/
structure NsCore where
  source : String
  libraries : List (String × LibraryEntry) := []
  resources : List (String × ResourceEntry) := []
  varsEntries : List (String × VariablesEntry) := []
  diagnostics : List Diagnostic := []
deriving DecidableEq, Repr

/-- Python `ordered_dict[k] = v`: replaces the value in place (keeping the
original position) when the key exists, else appends. -/
def odInsert {α : Type} (m : List (String × α)) (k : String) (v : α) : List (String × α) :=
  if m.any (fun p => p.1 = k) then m.map (fun p => if p.1 = k then (k, v) else p)
  else m ++ [(k, v)]

/-- Python truthiness of an optional source string. -/
def truthySource : Option String → Bool
  | some s => !(s = "")
  | none => false

/-- The related-information entry pointing at a previous import. -/
def relatedOf (first : LibraryEntry) : RelatedInfo :=
  { uri := uriOfPath first.importSource, range := first.importRange, message := "" }

/-- "Recursive resource import." information diagnostic. -/
def recursiveResourceDiag (r : Rng) : Diagnostic :=
  { range := r, message := "Recursive resource import.", severity := .information,
    source := DIAGNOSTICS_SOURCE_NAME }

/-- "Resource already imported." information diagnostic. -/
def resourceAlreadyDiag (e first : ResourceEntry) : Diagnostic :=
  { range := e.importRange, message := "Resource already imported.",
    severity := .information, source := DIAGNOSTICS_SOURCE_NAME,
    related := [relatedOf first.toLibraryEntry] }

/-- The "Variables ... already imported." information diagnostic. -/
def variablesAlreadyDiag (e first : VariablesEntry) : Diagnostic :=
  { range := e.importRange,
    message := "Variables \"" ++ entryStr e.toLibraryEntry ++ "\" already imported.",
    severity := .information, source := DIAGNOSTICS_SOURCE_NAME,
    related := [relatedOf first.toLibraryEntry] }

/-- The "Library ... already imported." information diagnostic. -/
def libraryAlreadyDiag (e first : LibraryEntry) : Diagnostic :=
  { range := e.importRange,
    message := "Library \"" ++ entryStr e ++ "\" already imported.",
    severity := .information, source := DIAGNOSTICS_SOURCE_NAME,
    related := [relatedOf first] }

/-- The information diagnostic for an unaliased user import of `BuiltIn`. -/
def builtinOverrideDiag (e : LibraryEntry) : Diagnostic :=
  { range := e.importRange,
    message := "Library \"" ++ entryStr e
      ++ "\" is not imported, because it would override the \"BuiltIn\" library.",
    severity := .information, source := DIAGNOSTICS_SOURCE_NAME,
    related := [relatedOf e] }

/-- Modelled from the spec: `BUILTIN_LIBRARY_NAME` of `library_doc.py` (not
among the sources); the spec names the implicitly present built-in library
`BuiltIn`. -/
def BUILTIN_LIBRARY_NAME : String := "BuiltIn"

/-- Modelled from the spec: the `DEFAULT_LIBRARIES` constant of
`library_doc.py` is not among the sources; the spec (§3, §4.4) requires the
built-in library to be implicitly imported. -/
def DEFAULT_LIBRARIES : List String := ["BuiltIn"]

/-- Models `str(Path(p).parent)`: the path up to the last slash. -/
def parentDir (p : String) : String :=
  let parts := p.splitOn "/"
  if parts.length ≤ 1 then "." else String.intercalate "/" parts.dropLast

/-- The duplicate-import information diagnostics of the commit step for a
variables entry: the entries with the same source, alias and args; when one
exists at top level with a truthy source, the "already imported"
information diagnostic (lines 831-856). -/
def dupVarDiags (top : Bool) (st : NsCore) (e : VariablesEntry) : List Diagnostic :=
  match (st.varsEntries.map (·.2)).filter
      (fun v => decide (v.libraryDoc.source = e.libraryDoc.source ∧ v.aliasName = e.aliasName
        ∧ v.args = e.args)) with
  | first :: _ =>
    if top && truthySource first.libraryDoc.source then [variablesAlreadyDiag e first] else []
  | [] => []

/-- The duplicate-import information diagnostics of the commit step for a
library entry (lines 883-907). -/
def dupLibDiags (top : Bool) (st : NsCore) (e : LibraryEntry) : List Diagnostic :=
  match (st.libraries.map (·.2)).filter
      (fun v => decide (v.libraryDoc.source = e.libraryDoc.source ∧ v.aliasName = e.aliasName
        ∧ v.args = e.args)) with
  | first :: _ =>
    if top && truthySource first.libraryDoc.source then [libraryAlreadyDiag e first] else []
  | [] => []

mutual

/-- `Namespace._import_imports`: resolve every import of the list (the
`asyncio.gather`), append the diagnostics emitted by the resolution tasks,
then commit the gathered entries in source order.  `fuel` bounds the
resource-recursion depth; claims instantiate it above the depth of the
finite import graph, mirroring the real traversal. -/
def importImports : Nat → ImportsEnv → NsCore → List Import → String → Bool → NsCore
  | 0, _, st, _, _, _ => st
  | n + 1, env, st, imports, baseDir, top =>
    let outs := imports.map (resolveOne top env baseDir st.resources)
    let st1 := { st with diagnostics := st.diagnostics ++ outs.flatMap (·.diags) }
    commitList n env top st1 outs
termination_by n _ _ _ _ _ => (n, 0, 0)

/-- The commit loop over the gathered outcomes (lines 765-910). -/
def commitList : Nat → ImportsEnv → Bool → NsCore → List ImportOutcome → NsCore
  | _, _, _, st, [] => st
  | n, env, top, st, o :: rest => commitList n env top (commitOne n env top st o) rest
termination_by n _ _ _ outs => (n, 2, outs.length)

/-- Committing one gathered outcome.  A `none` entry (failed or silently
skipped import) leaves the state unchanged; resources recurse into their
own imports with `top_level=False`; the real code's
`assert entry.library_doc.source is not None` is modelled by the `none`
source branch, which no claim reaches. -/
def commitOne : Nat → ImportsEnv → Bool → NsCore → ImportOutcome → NsCore
  | n, env, top, st, o =>
    match o.entry with
    | none => st
    | some (.resE e) =>
      match e.libraryDoc.source with
      | none => st
      | some src =>
        let already := (st.resources.map (·.2)).filter
          (fun r => decide (r.libraryDoc.source = some src))
        if already.isEmpty && decide (src ≠ st.source) then
          let st' := { st with
            resources := odInsert st.resources (entryKey e.aliasName e.name e.importName) e }
          importImports n env st' e.imports (parentDir src) false
        else if top then
          if src = st.source then
            { st with diagnostics := st.diagnostics ++ [recursiveResourceDiag e.importRange] }
          else
            match already with
            | [] => st
            | first :: _ =>
              if truthySource first.libraryDoc.source then
                { st with
                  resources := odInsert st.resources (entryKey e.aliasName e.name e.importName) e,
                  diagnostics := st.diagnostics ++ [resourceAlreadyDiag e first] }
              else st
        else st
    | some (.varE e) =>
      let st1 := { st with diagnostics := st.diagnostics ++ dupVarDiags top st e }
      if st1.varsEntries.any (fun p => p.1 = entryKey e.aliasName e.name e.importName) then st1
      else { st1 with
        varsEntries := st1.varsEntries ++ [(entryKey e.aliasName e.name e.importName, e)] }
    | some (.libE e) =>
      if top && decide (e.name = BUILTIN_LIBRARY_NAME) && decide (e.aliasName = none) then
        { st with diagnostics := st.diagnostics ++ [builtinOverrideDiag e] }
      else
        let st1 := { st with diagnostics := st.diagnostics ++ dupLibDiags top st e }
        if st1.libraries.any (fun p => p.1 = entryKey e.aliasName e.name e.importName) then st1
        else { st1 with
          libraries := st1.libraries ++ [(entryKey e.aliasName e.name e.importName, e)] }
termination_by n _ _ _ _ => (n, 1, 0)

end

/-- The failure diagnostic of `_import_default_libraries._import_lib`. -/
def defaultLibFailDiag (library : String) (e : PyExc) : Diagnostic :=
  { range := rngZero,
    message := "Can't import default library '" ++ library ++ "': "
      ++ (if e.message = "" then e.typeName else e.message),
    severity := .error, source := "Robot", code := some e.typeName }

/-- `Namespace._import_default_libraries`: gather the default libraries and
insert the successful entries unconditionally; a failure only produces an
error diagnostic. -/
def importDefaultLibraries (env : ImportsEnv) (st : NsCore) : NsCore :=
  DEFAULT_LIBRARIES.foldl
    (fun st library =>
      match env.libDoc library [] (parentDir st.source) with
      | .ok doc =>
        let e : LibraryEntry := { name := doc.name, importName := library, libraryDoc := doc }
        { st with libraries := odInsert st.libraries (entryKey none doc.name library) e }
      | .error ex => { st with diagnostics := st.diagnostics ++ [defaultLibFailDiag library ex] })
    st

/-- The fresh-initialization path of `Namespace.ensure_initialized`: import
the default libraries, then the collected `Import` nodes at top level, with
the file's directory as base. -/
def initializeNamespace (fuel : Nat) (env : ImportsEnv) (imports : List Import)
    (source : String) : NsCore :=
  importImports fuel env (importDefaultLibraries env { source := source }) imports
    (parentDir source) true

/-- A concurrent completion schedule for the gather: slots are written in
the order the tasks finish; `asyncio.gather` then reads them out in task
order.  Because the per-import resolution is a pure function of the import
(no commit mutates the maps during a top-level gather), any completion
order yields the same gathered list. -/
def gatherSched {α : Type} (f : Nat → α) (sched : List Nat) : Nat → Option α :=
  sched.foldl (fun acc i => fun j => if j = i then some (f i) else acc j) (fun _ => none)

/-- Folding the schedule writes slot `i` to `f i` whenever `i` is scheduled
or already held that value. -/
theorem gatherSchedAux {α : Type} (f : Nat → α) (sched : List Nat) (acc : Nat → Option α)
    (i : Nat) (h : i ∈ sched ∨ acc i = some (f i)) :
    sched.foldl (fun acc i => fun j => if j = i then some (f i) else acc j) acc i = some (f i) := by
  induction sched generalizing acc with
  | nil =>
    rcases h with h | h
    · cases h
    · exact h
  | cons a t ih =>
    simp only [List.foldl_cons]
    apply ih
    rcases h with h | h
    · rcases List.mem_cons.mp h with rfl | h
      · right
        simp
      · left
        exact h
    · by_cases hia : i = a
      · subst hia
        right
        simp
      · right
        simpa [hia] using h

/-- Any schedule containing index `i` fills slot `i` with `f i`. -/
theorem gatherSched_mem {α : Type} (f : Nat → α) (sched : List Nat) (i : Nat) (h : i ∈ sched) :
    gatherSched f sched i = some (f i) :=
  gatherSchedAux f sched _ i (Or.inl h)

/-! ## Namespace object state, invalidation, analysis (namespace.py 348-545, 1006-1050) -/

/-- The cached and mutable state of a `Namespace` object, as reset by
`invalidate`. -/
structure NamespaceState where
  libraries : List (String × LibraryEntry) := []
  librariesMatchers : Option (List (String × LibraryEntry)) := none
  resources : List (String × ResourceEntry) := []
  resourcesMatchers : Option (List (String × ResourceEntry)) := none
  varsEntries : List (String × VariablesEntry) := []
  importsCache : Option (List Import) := none
  ownVariables : Option (List VariableDefinition) := none
  keywordsCache : Option (List KeywordDoc) := none
  libraryDoc : Option LibraryDoc := none
  initializedFlag : Bool := false
  analyzedFlag : Bool := false
  diagnostics : List Diagnostic := []
  finder : Option FinderCtx := none

/-- `Namespace.invalidate` (lines 424-441): under the three locks, reset
every cache and flag, then call the registered invalidation callback once;
the returned number counts the callback invocations. -/
def invalidate (st : NamespaceState) : NamespaceState × Nat :=
  ({ st with
      initializedFlag := false
      libraries := []
      librariesMatchers := none
      resources := []
      resourcesMatchers := none
      varsEntries := []
      importsCache := none
      ownVariables := none
      keywordsCache := none
      libraryDoc := none
      analyzedFlag := false
      diagnostics := []
      finder := none }, 1)

/-- The outcome of `Analyzer().get(...)`: the produced diagnostics, or the
`asyncio.CancelledError` the pass raises when cancelled (the partial
diagnostics stay inside the analyzer's local result and are dropped). -/
inductive AnalyzerOutcome where
  | produced (diags : List Diagnostic)
  | cancelledDuring

/-- The diagnostic `_analyze` appends per own-libdoc error. -/
def libdocSelfErrDiag (err : LibDocError) : Diagnostic :=
  { range := { start := ⟨(match err.lineNo with | some l => l - 1 | none => 0), 0⟩,
               stop := ⟨(match err.lineNo with | some l => l - 1 | none => 0), 0⟩ },
    message := err.message, severity := .error, source := DIAGNOSTICS_SOURCE_NAME,
    code := some err.typeName }

/-- `Namespace._analyze`: skip when already analyzed; otherwise run the
analyzer, re-check the cancellation token (`check_canceled`), append the
produced diagnostics (`self._diagnostics += result`, line 1018), then
await the own library doc (`await self.get_library_doc()`, line 1020) — a
cancellable suspension point that sits inside the `try` AFTER the append —
and finally append the doc's errors.  `fetch` is `.error ()` when
`asyncio.CancelledError` is raised at that await; the pass's diagnostics
are already in the list at that point.  (A non-cancellation exception
there is out of scope: the `except asyncio.CancelledError` clause would
not catch it, so the `finally` block would mark the namespace analyzed.)
The `finally` block sets the analyzed flag iff the pass was not cancelled;
the returned flag is true when `asyncio.CancelledError` propagates out. -/
def analyzeStep (st : NamespaceState) (outcome : AnalyzerOutcome) (cancelAfter : Bool)
    (fetch : Except Unit LibraryDoc) : NamespaceState × Bool :=
  if st.analyzedFlag then (st, false)
  else
    match outcome with
    | .cancelledDuring => ({ st with analyzedFlag := false }, true)
    | .produced ds =>
      if cancelAfter then ({ st with analyzedFlag := false }, true)
      else
        let st1 := { st with diagnostics := st.diagnostics ++ ds }
        match fetch with
        | .error () => ({ st1 with analyzedFlag := false }, true)
        | .ok selfDoc =>
          let st2 := { st1 with
            diagnostics := st1.diagnostics
              ++ (match selfDoc.errors with
                  | some errs => errs.map libdocSelfErrDiag
                  | none => []) }
          ({ st2 with analyzedFlag := true }, false)

/-- `Namespace.get_diagnostisc` (sic) for an initialized namespace: run
`_analyze` and return the accumulated diagnostics; a cancellation during
`_analyze` propagates out unchanged as the `Except.error`. -/
def getDiagnostics (st : NamespaceState) (outcome : AnalyzerOutcome) (cancelAfter : Bool)
    (fetch : Except Unit LibraryDoc) : NamespaceState × Except Unit (List Diagnostic) :=
  let r := analyzeStep st outcome cancelAfter fetch
  (r.1, if r.2 then .error () else .ok r.1.diagnostics)

/-! ## Theorems for the claims -/

/-- C10: the eq/hash contract of `VariableMatcher` fails on the code:
`__eq__` compares normalized base names while `__hash__` hashes the raw
spelling, so the matchers of "${A}" and "${a}" are equal but their hash
keys differ, and the matcher-keyed dictionary lookup performed by
`find_variable` misses a canonically equal spelling of a stored name. -/
theorem c10_hash_contract_violation :
    mkVariableMatcher "${A}" = some ⟨"${A}", "A", "a"⟩ ∧
    mkVariableMatcher "${a}" = some ⟨"${a}", "a", "a"⟩ ∧
    matcherEq ⟨"${A}", "A", "a"⟩ ⟨"${a}", "a", "a"⟩ = true ∧
    hashKey ⟨"${A}", "A", "a"⟩ ≠ hashKey ⟨"${a}", "a", "a"⟩ ∧
    pyDictGet [(⟨"${A}", "A", "a"⟩, ⟨"${A}", "own.robot", 1, 0⟩)] ⟨"${a}", "a", "a"⟩ = none := by
  refine ⟨?_, ?_, ?_, ?_, ?_⟩ <;> decide

/-- Own-file variable definition of the C3 failing run. -/
def c3OwnDef : VariableDefinition := ⟨"${A}", "/w/suite.robot", 3, 0⟩

/-- Resource variable definition of the C3 failing run. -/
def c3ResDef : VariableDefinition := ⟨"${a}", "/w/res.resource", 1, 0⟩

/-- The resource entry of the C3 failing run. -/
def c3ResEntry : ResourceEntry :=
  { name := "res", importName := "res.resource",
    libraryDoc := { name := "res", source := some "/w/res.resource" },
    varDefs := [c3ResDef] }

/-- The variable context of the C3 failing run: the own file defines "${A}",
an imported resource defines the canonically equal "${a}". -/
def c3Ctx : VarCtx := { ownVariables := [c3OwnDef], resources := [c3ResEntry] }

/-- C3 (evaluation at the failing input): the merged dict of
`get_variables` keeps both canonically equal definitions, and
`find_variable("${a}")` returns the resource's definition although the own
file's "${A}" comes first in the merge order — "the first definition per
canonically-equal name wins" fails, because the membership test compares
matcher hashes of the raw spellings. -/
theorem c3_variable_merge_hash_bug :
    getVariables c3Ctx [] =
      some [(⟨"${A}", "A", "a"⟩, c3OwnDef), (⟨"${a}", "a", "a"⟩, c3ResDef)] ∧
    findVariable c3Ctx [] "${a}" = some (some c3ResDef) ∧
    c3ResDef ≠ c3OwnDef ∧
    matcherEq ⟨"${A}", "A", "a"⟩ ⟨"${a}", "a", "a"⟩ = true := by
  refine ⟨?_, ?_, ?_, ?_⟩ <;> decide

/-- C8: `invalidate()` resets everything in one step — the three ordered
maps and both matcher caches become empty/unset, the cached imports, own
variables, keywords, library doc and keyword finder become unset, both
flags become false, the diagnostics list becomes empty — and then the
registered invalidation callback is called exactly once. -/
theorem c8_invalidate_resets_all (st : NamespaceState) :
    (invalidate st).1.libraries = [] ∧
    (invalidate st).1.librariesMatchers = none ∧
    (invalidate st).1.resources = [] ∧
    (invalidate st).1.resourcesMatchers = none ∧
    (invalidate st).1.varsEntries = [] ∧
    (invalidate st).1.importsCache = none ∧
    (invalidate st).1.ownVariables = none ∧
    (invalidate st).1.keywordsCache = none ∧
    (invalidate st).1.libraryDoc = none ∧
    (invalidate st).1.finder = none ∧
    (invalidate st).1.initializedFlag = false ∧
    (invalidate st).1.analyzedFlag = false ∧
    (invalidate st).1.diagnostics = [] ∧
    (invalidate st).2 = 1 :=
  ⟨rfl, rfl, rfl, rfl, rfl, rfl, rfl, rfl, rfl, rfl, rfl, rfl, rfl, rfl⟩

/-- C9 (amended): when an analysis pass is cancelled — during the analyzer
run, at the cancellation re-check after it, or at the await of the own
library doc — the cancellation propagates out of `get_diagnostics`
unchanged and the analyzed flag stays false, so a subsequent call runs the
analysis again.  The pass's diagnostics are discarded when the
cancellation hits during the analyzer run or at the re-check; but a
cancellation at the library-doc await strikes after
`self._diagnostics += result`, so there the pass's diagnostics have
already been appended and remain. -/
theorem c9_cancelled_analysis (st : NamespaceState) (outcome : AnalyzerOutcome)
    (cancelAfter : Bool) (fetch : Except Unit LibraryDoc)
    (hna : st.analyzedFlag = false)
    (hcancel : outcome = .cancelledDuring ∨ cancelAfter = true ∨ fetch = .error ()) :
    (getDiagnostics st outcome cancelAfter fetch).2 = .error () ∧
    (getDiagnostics st outcome cancelAfter fetch).1.analyzedFlag = false ∧
    (outcome = .cancelledDuring ∨ cancelAfter = true →
      (getDiagnostics st outcome cancelAfter fetch).1.diagnostics = st.diagnostics) ∧
    (∀ ds, outcome = .produced ds → cancelAfter = false → fetch = .error () →
      (getDiagnostics st outcome cancelAfter fetch).1.diagnostics = st.diagnostics ++ ds) ∧
    (∀ ds (doc2 : LibraryDoc), doc2.errors = none →
      (analyzeStep (getDiagnostics st outcome cancelAfter fetch).1 (.produced ds) false
        (.ok doc2)).1.diagnostics
        = (getDiagnostics st outcome cancelAfter fetch).1.diagnostics ++ ds) := by
  cases outcome with
  | cancelledDuring =>
    refine ⟨?_, ?_, ?_, ?_, ?_⟩
    · simp [getDiagnostics, analyzeStep, hna]
    · simp [getDiagnostics, analyzeStep, hna]
    · intro _
      simp [getDiagnostics, analyzeStep, hna]
    · intro ds hds
      cases hds
    · intro ds doc2 herr
      simp [getDiagnostics, analyzeStep, hna, herr]
  | produced ds0 =>
    cases cancelAfter with
    | true =>
      refine ⟨?_, ?_, ?_, ?_, ?_⟩
      · simp [getDiagnostics, analyzeStep, hna]
      · simp [getDiagnostics, analyzeStep, hna]
      · intro _
        simp [getDiagnostics, analyzeStep, hna]
      · intro ds _ hfalse
        cases hfalse
      · intro ds doc2 herr
        simp [getDiagnostics, analyzeStep, hna, herr]
    | false =>
      have hf : fetch = .error () := by
        rcases hcancel with h | h | h
        · cases h
        · cases h
        · exact h
      subst hf
      refine ⟨?_, ?_, ?_, ?_, ?_⟩
      · simp [getDiagnostics, analyzeStep, hna]
      · simp [getDiagnostics, analyzeStep, hna]
      · intro hcd
        rcases hcd with h | h
        · cases h
        · cases h
      · intro ds hds _ _
        cases hds
        simp [getDiagnostics, analyzeStep, hna]
      · intro ds doc2 herr
        simp [getDiagnostics, analyzeStep, hna, herr]

/-- A sample diagnostic produced by an analysis pass in the C9 scenario. -/
def c9Diag : Diagnostic :=
  { range := rngZero, message := "No keyword with name 'Missing KW' found.",
    severity := .error, source := DIAGNOSTICS_SOURCE_NAME, code := some "KeywordError" }

/-- C9 counterexample: a cancellation raised at the `get_library_doc`
await (namespace.py line 1020) propagates with the analyzed flag false —
but the pass's diagnostics are already appended to the namespace's list,
refuting "none of the partially produced diagnostics of that pass are
appended". -/
theorem c9_cancelled_analysis_counterexample :
    (getDiagnostics {} (.produced [c9Diag]) false (.error ())).2 = .error () ∧
    (getDiagnostics {} (.produced [c9Diag]) false (.error ())).1.analyzedFlag = false ∧
    (getDiagnostics {} (.produced [c9Diag]) false (.error ())).1.diagnostics = [c9Diag] ∧
    (getDiagnostics {} (.produced [c9Diag]) false
      (.error ())).1.diagnostics ≠ ({} : NamespaceState).diagnostics := by
  refine ⟨rfl, rfl, rfl, by decide⟩

/-- C7: a top-level, unaliased library import whose resolved entry is named
`BuiltIn` is not inserted: the libraries map is left unchanged (so the
implicitly imported default `BuiltIn` entry stays present, untouched) and
the override information diagnostic is appended. -/
theorem c7_builtin_override_skip (n : Nat) (env : ImportsEnv) (st : NsCore) (bd : String)
    (imp : Import) (e : LibraryEntry) (ds : List Diagnostic)
    (hres : resolveOne true env bd st.resources imp = ⟨some (.libE e), ds⟩)
    (hname : e.name = BUILTIN_LIBRARY_NAME) (halias : e.aliasName = none) :
    (importImports (n + 1) env st [imp] bd true).libraries = st.libraries ∧
    builtinOverrideDiag e ∈ (importImports (n + 1) env st [imp] bd true).diagnostics ∧
    (builtinOverrideDiag e).severity = .information ∧
    ∀ p ∈ st.libraries, p ∈ (importImports (n + 1) env st [imp] bd true).libraries := by
  have hrun : importImports (n + 1) env st [imp] bd true =
      commitOne n env true
        { st with diagnostics := st.diagnostics ++ ds } ⟨some (.libE e), ds⟩ := by
    simp [importImports, commitList, hres]
  have hcommit : commitOne n env true
      { st with diagnostics := st.diagnostics ++ ds } ⟨some (.libE e), ds⟩ =
      { st with diagnostics := (st.diagnostics ++ ds) ++ [builtinOverrideDiag e] } := by
    simp [commitOne, hname, halias]
  rw [hrun, hcommit]
  refine ⟨rfl, ?_, rfl, ?_⟩
  · simp
  · intro p hp
    exact hp

/-- The built-in library doc of the C7 witness scenario. -/
def c7BuiltinDoc : LibraryDoc :=
  { name := "BuiltIn", source := some "/rf/BuiltIn.py", keywords := [("Log", ⟨"Log", "BuiltIn"⟩)] }

/-- The imports-manager behaviour of the C7 witness scenario. -/
def c7Env : ImportsEnv where
  findFile := fun _ _ => .error ⟨"DataError", "not found"⟩
  libDoc := fun n _ _ => if n = "BuiltIn" then .ok c7BuiltinDoc else .error ⟨"DataError", "no lib"⟩
  resourceDoc := fun _ _ => .error ⟨"DataError", "no res"⟩
  variablesDoc := fun _ _ _ => .error ⟨"DataError", "no vars"⟩

/-- The user's `Library    BuiltIn` import statement (no alias). -/
def c7Imp : Import := .lib ⟨some "BuiltIn", ⟨⟨1, 0⟩, ⟨1, 7⟩⟩, "/w/suite.robot"⟩ [] none

/-- The namespace state after `_import_default_libraries`. -/
def c7St : NsCore := importDefaultLibraries c7Env { source := "/w/suite.robot" }

/-- The entry the user's `BuiltIn` import resolves to. -/
def c7Entry : LibraryEntry :=
  { name := "BuiltIn", importName := "BuiltIn", libraryDoc := c7BuiltinDoc,
    importRange := ⟨⟨1, 0⟩, ⟨1, 7⟩⟩, importSource := "/w/suite.robot" }

/-- Witness for C7: in the concrete scenario the unaliased `BuiltIn` import
leaves the libraries map unchanged, emits the information diagnostic, and
the default `BuiltIn` entry is still present. -/
theorem c7_builtin_override_skip_witness :
    (importImports 1 c7Env c7St [c7Imp] "/w" true).libraries = c7St.libraries ∧
    builtinOverrideDiag c7Entry ∈ (importImports 1 c7Env c7St [c7Imp] "/w" true).diagnostics ∧
    (("BuiltIn", { name := "BuiltIn", importName := "BuiltIn", libraryDoc := c7BuiltinDoc })
      : String × LibraryEntry) ∈ c7St.libraries :=
  have h := c7_builtin_override_skip 0 c7Env c7St "/w" c7Imp c7Entry [] (by decide) rfl rfl
  ⟨h.1, h.2.1, by decide⟩

/-- Witness for the amended C9, at two concrete inputs: a pass cancelled
during the analyzer run propagates, appends nothing and leaves the flag
false; a pass cancelled at the library-doc await propagates and leaves the
flag false with its diagnostics already appended. -/
theorem c9_cancelled_analysis_witness :
    (getDiagnostics {} AnalyzerOutcome.cancelledDuring false (.ok { name := "s" })).2
      = .error () ∧
    (getDiagnostics {} AnalyzerOutcome.cancelledDuring false
      (.ok { name := "s" })).1.diagnostics = ({} : NamespaceState).diagnostics ∧
    (getDiagnostics {} AnalyzerOutcome.cancelledDuring false
      (.ok { name := "s" })).1.analyzedFlag = false ∧
    (getDiagnostics {} (.produced [c9Diag]) false (.error ())).2 = .error () ∧
    (getDiagnostics {} (.produced [c9Diag]) false (.error ())).1.diagnostics
      = ({} : NamespaceState).diagnostics ++ [c9Diag] :=
  have h1 := c9_cancelled_analysis {} .cancelledDuring false (.ok { name := "s" })
    rfl (Or.inl rfl)
  have h2 := c9_cancelled_analysis {} (.produced [c9Diag]) false (.error ())
    rfl (Or.inr (Or.inr rfl))
  ⟨h1.1, h1.2.2.1 (Or.inl rfl), h1.2.1, h2.1, h2.2.2.2.1 [c9Diag] rfl rfl rfl⟩

/-- Helper: the value of `_find_keyword`'s explicit step when the name has
no dot or the explicit search missed without cancelling. -/
theorem step2_eq_none (F : FinderCtx) (name : String)
    (hdot : containsDot name = false ∨ getExplicitKeyword F name = (.ok none, [])) :
    (if containsDot name then getExplicitKeyword F name else (.ok none, []))
      = ((.ok none, []) : FRes × List DiagnosticsEntry) := by
  rcases hdot with hdot | hdot
  · simp [hdot]
  · by_cases hc : containsDot name = true
    · simp [hc, hdot]
    · rw [if_neg hc]

/-- Composition helper: when the self, explicit and resource steps all miss
without cancelling, `find_keyword` returns exactly what the library step
produced. -/
theorem findKeyword_library_step (F : FinderCtx) (name : String) (k : KeywordDoc)
    (ds : List DiagnosticsEntry)
    (hn : name ≠ "") (hself : getKeywordFromSelf F name = none)
    (hdot : containsDot name = false ∨ getExplicitKeyword F name = (.ok none, []))
    (hres : getKeywordFromResourceFiles F name = (.ok none, []))
    (hlib : getKeywordFromLibraries F name = (.ok (some k), ds)) :
    findKeyword F name = (some k, ds) := by
  rw [findKeyword, findKeywordInner.eq_def]
  rw [getKeywordFromSelf] at hself
  simp [hn, hself, step2_eq_none F name hdot, getImplicitKeyword, hres, hlib]

/-- Composition helper: when every step before the BDD one misses without
cancelling and a BDD word matches, `_find_keyword` equals its recursion on
the stripped remainder. -/
theorem findKeywordInner_bdd_step (F : FinderCtx) (name rest : String)
    (hn : name ≠ "") (hself : getKeywordFromSelf F name = none)
    (hdot : containsDot name = false ∨ getExplicitKeyword F name = (.ok none, []))
    (hres : getKeywordFromResourceFiles F name = (.ok none, []))
    (hlib : getKeywordFromLibraries F name = (.ok none, []))
    (hbdd : stripBdd name = some rest) :
    findKeywordInner F name = findKeywordInner F rest := by
  rw [findKeywordInner.eq_def]
  rw [getKeywordFromSelf] at hself
  rw [if_neg hn]
  simp only [hself, step2_eq_none F name hdot, getImplicitKeyword, hres, hlib]
  split
  next r heq =>
    rw [hbdd] at heq
    simp only [Option.some.injEq] at heq
    subst heq
    simp
  next heq =>
    rw [hbdd] at heq
    simp at heq

/-- Composition helper: when every step misses without cancelling and no
BDD word matches, `_find_keyword` returns a plain miss with no
diagnostics. -/
theorem findKeywordInner_all_none (F : FinderCtx) (name : String)
    (hn : name ≠ "") (hself : getKeywordFromSelf F name = none)
    (hdot : containsDot name = false ∨ getExplicitKeyword F name = (.ok none, []))
    (hres : getKeywordFromResourceFiles F name = (.ok none, []))
    (hlib : getKeywordFromLibraries F name = (.ok none, []))
    (hbdd : stripBdd name = none) :
    findKeywordInner F name = (.ok none, []) := by
  rw [findKeywordInner.eq_def]
  rw [getKeywordFromSelf] at hself
  rw [if_neg hn]
  simp only [hself, step2_eq_none F name hdot, getImplicitKeyword, hres, hlib]
  split
  next r heq =>
    rw [hbdd] at heq
    simp at heq
  next heq =>
    simp

/-- C2: `find_keyword` resolves in order, first hit winning — (1) the exact
canonical match in the file's own keywords; (2) when the name contains a
dot, the explicit owner.keyword match over every split point; (3) the
implicit match among resource entries; (4) the implicit match among library
entries; (5) when the name starts with a BDD word (case-insensitive, single
trailing space), the recursive resolution of the stripped remainder; and
when no step yields a match the result is `none` with the error
"No keyword with name '…' found." recorded. -/
theorem c2_keyword_resolution_order (F : FinderCtx) (name : String) (k : KeywordDoc) :
    (name ≠ "" → getKeywordFromSelf F name = some k →
      findKeywordInner F name = (.ok (some k), []) ∧ findKeyword F name = (some k, [])) ∧
    (name ≠ "" → getKeywordFromSelf F name = none → containsDot name = true →
      getExplicitKeyword F name = (.ok (some k), []) →
      findKeyword F name = (some k, [])) ∧
    (name ≠ "" → getKeywordFromSelf F name = none →
      (containsDot name = false ∨ getExplicitKeyword F name = (.ok none, [])) →
      getKeywordFromResourceFiles F name = (.ok (some k), []) →
      findKeyword F name = (some k, [])) ∧
    (∀ ds, name ≠ "" → getKeywordFromSelf F name = none →
      (containsDot name = false ∨ getExplicitKeyword F name = (.ok none, [])) →
      getKeywordFromResourceFiles F name = (.ok none, []) →
      getKeywordFromLibraries F name = (.ok (some k), ds) →
      findKeyword F name = (some k, ds)) ∧
    (∀ rest, name ≠ "" → getKeywordFromSelf F name = none →
      (containsDot name = false ∨ getExplicitKeyword F name = (.ok none, [])) →
      getKeywordFromResourceFiles F name = (.ok none, []) →
      getKeywordFromLibraries F name = (.ok none, []) →
      stripBdd name = some rest →
      findKeywordInner F name = findKeywordInner F rest ∧
        (findKeyword F name).1 = (findKeyword F rest).1) ∧
    (name ≠ "" → getKeywordFromSelf F name = none →
      (containsDot name = false ∨ getExplicitKeyword F name = (.ok none, [])) →
      getKeywordFromResourceFiles F name = (.ok none, []) →
      getKeywordFromLibraries F name = (.ok none, []) →
      stripBdd name = none →
      findKeyword F name = (none, [⟨noKeywordMsg name, .error, some "KeywordError"⟩])) := by
  refine ⟨?_, ?_, ?_, ?_, ?_, ?_⟩
  · intro hn hself
    rw [getKeywordFromSelf] at hself
    have hin : findKeywordInner F name = (.ok (some k), []) := by
      rw [findKeywordInner.eq_def]
      simp [hn, hself]
    refine ⟨hin, ?_⟩
    rw [findKeyword, hin]
  · intro hn hself hdot hexp
    rw [findKeyword, findKeywordInner.eq_def]
    rw [getKeywordFromSelf] at hself
    simp [hn, hself, hdot, hexp]
  · intro hn hself hdot hres
    rw [findKeyword, findKeywordInner.eq_def]
    rw [getKeywordFromSelf] at hself
    simp [hn, hself, step2_eq_none F name hdot, getImplicitKeyword, hres]
  · intro ds hn hself hdot hres hlib
    exact findKeyword_library_step F name k ds hn hself hdot hres hlib
  · intro rest hn hself hdot hres hlib hbdd
    have hin := findKeywordInner_bdd_step F name rest hn hself hdot hres hlib hbdd
    refine ⟨hin, ?_⟩
    rw [findKeyword, findKeyword, hin]
    rcases findKeywordInner F rest with ⟨fr, d⟩
    cases fr with
    | cancel => rfl
    | ok k2 => cases k2 <;> rfl
  · intro hn hself hdot hres hlib hbdd
    rw [findKeyword, findKeywordInner_all_none F name hn hself hdot hres hlib hbdd]
    rfl

/-- The own-file library doc of the C2 witness: the file declares the
keyword `Log In`. -/
def c2SelfDoc : LibraryDoc :=
  { name := "suite", keywords := [("Log In", ⟨"Log In", "suite"⟩)] }

/-- The finder context of the C2 witness scenario. -/
def c2Ctx : FinderCtx := { selfLibraryDoc := c2SelfDoc }

/-- Witness for C2 (the claim's own example): `Given log in` resolves, via
BDD stripping and then the own-keywords step, to the declared `Log In`
keyword with no diagnostic. -/
theorem c2_keyword_resolution_order_witness :
    findKeyword c2Ctx "Given log in" = (some ⟨"Log In", "suite"⟩, []) := by
  have h1 := (c2_keyword_resolution_order c2Ctx "log in" ⟨"Log In", "suite"⟩).1
    (by decide) (by decide)
  have h5 := (c2_keyword_resolution_order c2Ctx "Given log in" ⟨"Log In", "suite"⟩).2.2.2.2.1
    "log in" (by decide) (by decide) (Or.inl (by decide)) (by decide) (by decide) (by decide)
  rw [findKeyword, h5.1, h1.1]

/-- C4: when, after search-order disambiguation, an implicit library lookup
finds the keyword in exactly two library entries of which exactly one
belongs to a standard library (the stdlib set minus `Remote`),
`find_keyword` records a warning naming the custom and the standard library
and returns the keyword of the custom (non-standard) entry. -/
theorem c4_stdlib_conflict_warning (F : FinderCtx) (name : String)
    (e1 e2 : LibraryEntry × KeywordDoc)
    (hn : name ≠ "")
    (hself : getKeywordFromSelf F name = none)
    (hdot : containsDot name = false)
    (hres : resourcesWithKeyword F name = [])
    (hlibs : libsWithKeyword F name = [e1, e2])
    (hso : getKeywordBasedOnSearchOrder F.searchOrder [e1, e2] = [e1, e2]) :
    (e1.1.name ∈ stdlibsWithoutRemote → e2.1.name ∉ stdlibsWithoutRemote →
      findKeyword F name =
        (some e2.2, [⟨createConflictMsg e2 e1, .warning, some "KeywordError"⟩])) ∧
    (e1.1.name ∉ stdlibsWithoutRemote → e2.1.name ∈ stdlibsWithoutRemote →
      findKeyword F name =
        (some e1.2, [⟨createConflictMsg e1 e2, .warning, some "KeywordError"⟩])) := by
  have hresfiles : getKeywordFromResourceFiles F name = (.ok none, []) := by
    simp [getKeywordFromResourceFiles, hres]
  constructor
  · intro h1 h2
    have hlib : getKeywordFromLibraries F name =
        (.ok (some e2.2), [⟨createConflictMsg e2 e1, .warning, some "KeywordError"⟩]) := by
      rw [getKeywordFromLibraries, hlibs]
      simp [hso, filterStdlibRunner, h1]
    exact findKeyword_library_step F name e2.2
      [⟨createConflictMsg e2 e1, .warning, some "KeywordError"⟩]
      hn hself (Or.inl hdot) hresfiles hlib
  · intro h1 h2
    have hlib : getKeywordFromLibraries F name =
        (.ok (some e1.2), [⟨createConflictMsg e1 e2, .warning, some "KeywordError"⟩]) := by
      rw [getKeywordFromLibraries, hlibs]
      simp [hso, filterStdlibRunner, h1, h2]
    exact findKeyword_library_step F name e1.2
      [⟨createConflictMsg e1 e2, .warning, some "KeywordError"⟩]
      hn hself (Or.inl hdot) hresfiles hlib

/-! ## Commit-order machinery for C1, C5 and C6 -/

/-- The library entries among the gathered outcomes, in gather order. -/
def committedLibs (outs : List ImportOutcome) : List LibraryEntry :=
  outs.filterMap (fun o => match o.entry with | some (.libE e) => some e | _ => none)

/-- The resource entries among the gathered outcomes, in gather order. -/
def committedRes (outs : List ImportOutcome) : List ResourceEntry :=
  outs.filterMap (fun o => match o.entry with | some (.resE e) => some e | _ => none)

/-- The variables entries among the gathered outcomes, in gather order. -/
def committedVars (outs : List ImportOutcome) : List VariablesEntry :=
  outs.filterMap (fun o => match o.entry with | some (.varE e) => some e | _ => none)

/-- The map key of a library entry. -/
def libKey (e : LibraryEntry) : String := entryKey e.aliasName e.name e.importName

/-- The map key of a resource entry. -/
def resKey (e : ResourceEntry) : String := entryKey e.aliasName e.name e.importName

/-- The map key of a variables entry. -/
def varKey (e : VariablesEntry) : String := entryKey e.aliasName e.name e.importName

/-- The keys of the libraries map. -/
def libKeys (st : NsCore) : List String := st.libraries.map Prod.fst

/-- The keys of the variables map. -/
def varKeys (st : NsCore) : List String := st.varsEntries.map Prod.fst

/-- The keys of the resources map. -/
def resKeys (st : NsCore) : List String := st.resources.map Prod.fst

/-- The resolved source paths of the resources map. -/
def resSources (st : NsCore) : List (Option String) :=
  st.resources.map (fun p => p.2.libraryDoc.source)

/-- Importing an empty import list changes nothing. -/
theorem importImports_nil (n : Nat) (env : ImportsEnv) (st : NsCore) (bd : String)
    (top : Bool) : importImports n env st [] bd top = st := by
  cases n with
  | zero => simp [importImports]
  | succ m => simp [importImports, commitList]

/-- Committing a gathered library entry that is not skipped as a `BuiltIn`
override and whose key is fresh appends exactly that entry to the libraries
map, leaves the other maps and the source untouched, and appends only the
duplicate-information diagnostics. -/
theorem commitOne_libE_maps (n : Nat) (env : ImportsEnv) (top : Bool) (st : NsCore)
    (e : LibraryEntry) (d : List Diagnostic)
    (hB : ¬(top = true ∧ e.name = BUILTIN_LIBRARY_NAME ∧ e.aliasName = none))
    (hk : libKey e ∉ libKeys st) :
    commitOne n env top st ⟨some (.libE e), d⟩ =
      { st with libraries := st.libraries ++ [(libKey e, e)],
                diagnostics := st.diagnostics ++ dupLibDiags top st e } := by
  have hBfalse : (top && decide (e.name = BUILTIN_LIBRARY_NAME)
      && decide (e.aliasName = none)) = false := by
    rcases Bool.eq_false_or_eq_true
        (top && decide (e.name = BUILTIN_LIBRARY_NAME) && decide (e.aliasName = none)) with
      ht | hf
    · exfalso
      apply hB
      simp only [Bool.and_eq_true, decide_eq_true_iff] at ht
      exact ⟨ht.1.1, ht.1.2, ht.2⟩
    · exact hf
  have hany : (st.libraries.any (fun p => p.1 = entryKey e.aliasName e.name e.importName))
      = false := by
    rw [List.any_eq_false]
    intro p hp
    simp only [decide_eq_true_iff]
    intro hpe
    apply hk
    have hmem : p.1 ∈ st.libraries.map Prod.fst := List.mem_map_of_mem Prod.fst hp
    rw [libKeys, libKey, ← hpe]
    exact hmem
  rw [commitOne]
  simp [hBfalse, hany, libKey]

/-- Committing a gathered variables entry with a fresh key appends exactly
that entry to the variables map and only the duplicate-information
diagnostics. -/
theorem commitOne_varE_maps (n : Nat) (env : ImportsEnv) (top : Bool) (st : NsCore)
    (e : VariablesEntry) (d : List Diagnostic)
    (hk : varKey e ∉ varKeys st) :
    commitOne n env top st ⟨some (.varE e), d⟩ =
      { st with varsEntries := st.varsEntries ++ [(varKey e, e)],
                diagnostics := st.diagnostics ++ dupVarDiags top st e } := by
  have hany : (st.varsEntries.any (fun p => p.1 = entryKey e.aliasName e.name e.importName))
      = false := by
    rw [List.any_eq_false]
    intro p hp
    simp only [decide_eq_true_iff]
    intro hpe
    apply hk
    have hmem : p.1 ∈ st.varsEntries.map Prod.fst := List.mem_map_of_mem Prod.fst hp
    rw [varKeys, varKey, ← hpe]
    exact hmem
  rw [commitOne]
  simp [hany, varKey]

/-- Committing a gathered childless resource entry with a fresh source
(distinct from the namespace's own file) and a fresh key appends exactly
that entry to the resources map, with no new diagnostics. -/
theorem commitOne_resE_maps (n : Nat) (env : ImportsEnv) (top : Bool) (st : NsCore)
    (e : ResourceEntry) (d : List Diagnostic) (s : String)
    (hs : e.libraryDoc.source = some s) (hself : s ≠ st.source)
    (hch : e.imports = [])
    (hsfresh : some s ∉ resSources st)
    (hk : resKey e ∉ resKeys st) :
    commitOne n env top st ⟨some (.resE e), d⟩ =
      { st with resources := st.resources ++ [(resKey e, e)] } := by
  have hfilter : ((st.resources.map (·.2)).filter
      (fun r => decide (r.libraryDoc.source = some s))) = [] := by
    rw [List.filter_eq_nil_iff]
    intro r hr
    simp only [decide_eq_true_iff]
    intro hrs
    apply hsfresh
    rw [resSources, ← hrs]
    rcases List.mem_map.mp hr with ⟨p, hp, rfl⟩
    exact List.mem_map_of_mem (fun p => p.2.libraryDoc.source) hp
  have hany : (st.resources.any (fun p => p.1 = entryKey e.aliasName e.name e.importName))
      = false := by
    rw [List.any_eq_false]
    intro p hp
    simp only [decide_eq_true_iff]
    intro hpe
    apply hk
    have hmem : p.1 ∈ st.resources.map Prod.fst := List.mem_map_of_mem Prod.fst hp
    rw [resKeys, resKey, ← hpe]
    exact hmem
  rw [commitOne]
  simp [hs, hfilter, hch, odInsert, hany, importImports_nil, hself, resKey]

/-- The conditions under which a batch of gathered outcomes commits
cleanly: no library entry is skipped as an unaliased `BuiltIn` at top
level, every resource entry is childless with a source distinct from the
namespace's own file, and keys and resource sources are fresh and pairwise
distinct per map. -/
structure CleanBatch (top : Bool) (st : NsCore) (outs : List ImportOutcome) : Prop where
  libsOk : ∀ e ∈ committedLibs outs,
    ¬(top = true ∧ e.name = BUILTIN_LIBRARY_NAME ∧ e.aliasName = none)
  resOk : ∀ e ∈ committedRes outs,
    e.imports = [] ∧ ∃ s, e.libraryDoc.source = some s ∧ s ≠ st.source
  libKeysOk : (libKeys st ++ (committedLibs outs).map libKey).Nodup
  varKeysOk : (varKeys st ++ (committedVars outs).map varKey).Nodup
  resKeysOk : (resKeys st ++ (committedRes outs).map resKey).Nodup
  resSourcesOk : (resSources st ++ (committedRes outs).map (fun e => e.libraryDoc.source)).Nodup

/-- From the no-duplicate property of `keys ++ k :: ks`, the head key `k`
is fresh with respect to `keys`. -/
theorem head_fresh {α : Type} [DecidableEq α] {A : List α} {k : α} {K : List α}
    (h : (A ++ k :: K).Nodup) : k ∉ A := by
  rw [List.nodup_append] at h
  intro hmem
  exact h.2.2 hmem (List.mem_cons_self _ _)

/-- Committing a clean batch of gathered outcomes appends exactly the
committed entries, in gather order, to the respective maps; the source is
unchanged and diagnostics only grow. -/
theorem commitList_clean (n : Nat) (env : ImportsEnv) (top : Bool)
    (outs : List ImportOutcome) :
    ∀ (st : NsCore), CleanBatch top st outs →
    ∃ D : List Diagnostic,
      commitList n env top st outs =
        { source := st.source,
          libraries := st.libraries ++ (committedLibs outs).map (fun e => (libKey e, e)),
          resources := st.resources ++ (committedRes outs).map (fun e => (resKey e, e)),
          varsEntries := st.varsEntries ++ (committedVars outs).map (fun e => (varKey e, e)),
          diagnostics := st.diagnostics ++ D } := by
  induction outs with
  | nil =>
    intro st _
    refine ⟨[], ?_⟩
    simp [commitList, committedLibs, committedRes, committedVars]
  | cons o rest ih =>
    intro st h
    rcases o with ⟨entry, d⟩
    have hstep : commitList n env top st (⟨entry, d⟩ :: rest) =
        commitList n env top (commitOne n env top st ⟨entry, d⟩) rest := by
      simp [commitList]
    rcases entry with _ | ce
    · have hco : commitOne n env top st ⟨none, d⟩ = st := by
        rw [commitOne]
      have hl : committedLibs (⟨none, d⟩ :: rest) = committedLibs rest := by
        simp [committedLibs]
      have hr : committedRes (⟨none, d⟩ :: rest) = committedRes rest := by
        simp [committedRes]
      have hv : committedVars (⟨none, d⟩ :: rest) = committedVars rest := by
        simp [committedVars]
      have hrest : CleanBatch top st rest :=
        ⟨hl ▸ h.libsOk, hr ▸ h.resOk, hl ▸ h.libKeysOk, hv ▸ h.varKeysOk,
         hr ▸ h.resKeysOk, hr ▸ h.resSourcesOk⟩
      rcases ih st hrest with ⟨D, hD⟩
      refine ⟨D, ?_⟩
      rw [hstep, hco, hD, hl, hr, hv]
    · rcases ce with e | e | e
      · -- library entry
        have hl : committedLibs (⟨some (.libE e), d⟩ :: rest) = e :: committedLibs rest := by
          simp [committedLibs]
        have hr : committedRes (⟨some (.libE e), d⟩ :: rest) = committedRes rest := by
          simp [committedRes]
        have hv : committedVars (⟨some (.libE e), d⟩ :: rest) = committedVars rest := by
          simp [committedVars]
        have hkeys : (libKeys st ++ libKey e :: (committedLibs rest).map libKey).Nodup := by
          have hx := h.libKeysOk
          rw [hl, List.map_cons] at hx
          exact hx
        have hkfresh : libKey e ∉ libKeys st := head_fresh hkeys
        have hB := h.libsOk e (by rw [hl]; exact List.mem_cons_self _ _)
        have hco := commitOne_libE_maps n env top st e d hB hkfresh
        have hrest : CleanBatch top
            { st with libraries := st.libraries ++ [(libKey e, e)],
                      diagnostics := st.diagnostics ++ dupLibDiags top st e } rest := by
          constructor
          · intro e2 he2
            exact h.libsOk e2 (by rw [hl]; exact List.mem_cons_of_mem _ he2)
          · intro e2 he2
            exact h.resOk e2 (by rw [hr]; exact he2)
          · have hnew : libKeys
                { st with
                    libraries := st.libraries ++ [(libKey e, e)],
                    diagnostics := st.diagnostics ++ dupLibDiags top st e }
                = libKeys st ++ [libKey e] := by
              simp [libKeys]
            rw [hnew, List.append_assoc]
            simpa using hkeys
          · have hx := h.varKeysOk
            rw [hv] at hx
            exact hx
          · have hx := h.resKeysOk
            rw [hr] at hx
            exact hx
          · have hx := h.resSourcesOk
            rw [hr] at hx
            exact hx
        rcases ih _ hrest with ⟨D, hD⟩
        refine ⟨dupLibDiags top st e ++ D, ?_⟩
        rw [hstep, hco, hD, hl, hr, hv]
        simp [List.append_assoc]
      · -- resource entry
        have hl : committedLibs (⟨some (.resE e), d⟩ :: rest) = committedLibs rest := by
          simp [committedLibs]
        have hr : committedRes (⟨some (.resE e), d⟩ :: rest) = e :: committedRes rest := by
          simp [committedRes]
        have hv : committedVars (⟨some (.resE e), d⟩ :: rest) = committedVars rest := by
          simp [committedVars]
        obtain ⟨hch, s, hs, hself⟩ := h.resOk e (by rw [hr]; exact List.mem_cons_self _ _)
        have hkeys : (resKeys st ++ resKey e :: (committedRes rest).map resKey).Nodup := by
          have hx := h.resKeysOk
          rw [hr, List.map_cons] at hx
          exact hx
        have hkfresh : resKey e ∉ resKeys st := head_fresh hkeys
        have hsrcs : (resSources st ++ some s
            :: (committedRes rest).map (fun e2 => e2.libraryDoc.source)).Nodup := by
          have hx := h.resSourcesOk
          rw [hr, List.map_cons, hs] at hx
          exact hx
        have hsfresh : some s ∉ resSources st := head_fresh hsrcs
        have hco := commitOne_resE_maps n env top st e d s hs hself hch hsfresh hkfresh
        have hrest : CleanBatch top
            { st with resources := st.resources ++ [(resKey e, e)] } rest := by
          constructor
          · intro e2 he2
            exact h.libsOk e2 (by rw [hl]; exact he2)
          · intro e2 he2
            exact h.resOk e2 (by rw [hr]; exact List.mem_cons_of_mem _ he2)
          · have hx := h.libKeysOk
            rw [hl] at hx
            exact hx
          · have hx := h.varKeysOk
            rw [hv] at hx
            exact hx
          · have hnew : resKeys { st with resources := st.resources ++ [(resKey e, e)] }
                = resKeys st ++ [resKey e] := by
              simp [resKeys]
            rw [hnew, List.append_assoc]
            simpa using hkeys
          · have hnew : resSources { st with resources := st.resources ++ [(resKey e, e)] }
                = resSources st ++ [e.libraryDoc.source] := by
              simp [resSources]
            rw [hnew, List.append_assoc, hs]
            simpa using hsrcs
        rcases ih _ hrest with ⟨D, hD⟩
        refine ⟨D, ?_⟩
        rw [hstep, hco, hD, hl, hr, hv]
        simp [List.append_assoc]
      · -- variables entry
        have hl : committedLibs (⟨some (.varE e), d⟩ :: rest) = committedLibs rest := by
          simp [committedLibs]
        have hr : committedRes (⟨some (.varE e), d⟩ :: rest) = committedRes rest := by
          simp [committedRes]
        have hv : committedVars (⟨some (.varE e), d⟩ :: rest) = e :: committedVars rest := by
          simp [committedVars]
        have hkeys : (varKeys st ++ varKey e :: (committedVars rest).map varKey).Nodup := by
          have hx := h.varKeysOk
          rw [hv, List.map_cons] at hx
          exact hx
        have hkfresh : varKey e ∉ varKeys st := head_fresh hkeys
        have hco := commitOne_varE_maps n env top st e d hkfresh
        have hrest : CleanBatch top
            { st with varsEntries := st.varsEntries ++ [(varKey e, e)],
                      diagnostics := st.diagnostics ++ dupVarDiags top st e } rest := by
          constructor
          · intro e2 he2
            exact h.libsOk e2 (by rw [hl]; exact he2)
          · intro e2 he2
            exact h.resOk e2 (by rw [hr]; exact he2)
          · have hx := h.libKeysOk
            rw [hl] at hx
            exact hx
          · have hnew : varKeys
                { st with
                    varsEntries := st.varsEntries ++ [(varKey e, e)],
                    diagnostics := st.diagnostics ++ dupVarDiags top st e }
                = varKeys st ++ [varKey e] := by
              simp [varKeys]
            rw [hnew, List.append_assoc]
            simpa using hkeys
          · have hx := h.resKeysOk
            rw [hr] at hx
            exact hx
          · have hx := h.resSourcesOk
            rw [hr] at hx
            exact hx
        rcases ih _ hrest with ⟨D, hD⟩
        refine ⟨dupVarDiags top st e ++ D, ?_⟩
        rw [hstep, hco, hD, hl, hr, hv]
        simp [List.append_assoc]

/-- C5: at top level the import results are gathered first and then
committed in source order: the keys of the libraries, resources and
variables maps extend the pre-existing keys by exactly the committed
entries of `imports`, in the source order of the `Import` nodes; moreover
the gathered outcome of every import slot is the same pure value under any
completion schedule that runs every task, so the commit order cannot depend
on which resolution task finishes first. -/
theorem c5_import_commit_source_order (n : Nat) (env : ImportsEnv) (st : NsCore)
    (imports : List Import) (bd : String)
    (hclean : CleanBatch true st (imports.map (resolveOne true env bd st.resources))) :
    ((importImports (n + 1) env st imports bd true).libraries.map Prod.fst
        = libKeys st
          ++ (committedLibs (imports.map (resolveOne true env bd st.resources))).map libKey) ∧
    ((importImports (n + 1) env st imports bd true).resources.map Prod.fst
        = resKeys st
          ++ (committedRes (imports.map (resolveOne true env bd st.resources))).map resKey) ∧
    ((importImports (n + 1) env st imports bd true).varsEntries.map Prod.fst
        = varKeys st
          ++ (committedVars (imports.map (resolveOne true env bd st.resources))).map varKey) ∧
    (∀ sched : List Nat, (∀ i, i < imports.length → i ∈ sched) →
      ∀ i, i < imports.length →
        gatherSched (fun j => resolveOne true env bd st.resources
            (imports.getD j (.res ⟨none, rngZero, ""⟩))) sched i
          = some (resolveOne true env bd st.resources
              (imports.getD i (.res ⟨none, rngZero, ""⟩)))) := by
  have hrun : importImports (n + 1) env st imports bd true =
      commitList n env true
        { st with diagnostics := st.diagnostics
            ++ (imports.map (resolveOne true env bd st.resources)).flatMap (·.diags) }
        (imports.map (resolveOne true env bd st.resources)) := by
    simp [importImports]
  have hclean1 : CleanBatch true
      { st with diagnostics := st.diagnostics
          ++ (imports.map (resolveOne true env bd st.resources)).flatMap (·.diags) }
      (imports.map (resolveOne true env bd st.resources)) :=
    ⟨hclean.libsOk, hclean.resOk, hclean.libKeysOk, hclean.varKeysOk,
     hclean.resKeysOk, hclean.resSourcesOk⟩
  rcases commitList_clean n env true (imports.map (resolveOne true env bd st.resources))
      _ hclean1 with ⟨D, hD⟩
  refine ⟨?_, ?_, ?_, ?_⟩
  · rw [hrun, hD]
    simp [libKeys, List.map_map, Function.comp]
  · rw [hrun, hD]
    simp [resKeys, List.map_map, Function.comp]
  · rw [hrun, hD]
    simp [varKeys, List.map_map, Function.comp]
  · intro sched hsched i hi
    exact gatherSched_mem _ sched i (hsched i hi)

/-- C6: a non-fatal exception while resolving one import yields exactly one
error diagnostic at that import's range — message is the exception message,
code is the exception type name — the failed import contributes no entry to
any map, and every other import of the same list is still resolved and
committed normally. -/
theorem c6_failed_import_local_recovery (n : Nat) (env : ImportsEnv) (st : NsCore)
    (bd : String) (pre post : List Import)
    (info : ImportInfo) (args : List String) (al : Option String)
    (nm : String) (ex : PyExc)
    (hname : info.name = some nm)
    (hfail : env.libDoc nm args bd = .error ex)
    (hclean : CleanBatch true st ((pre ++ post).map (resolveOne true env bd st.resources))) :
    (resolveOne true env bd st.resources (.lib info args al)
        = ⟨none, [excDiag info.rangeVal ex]⟩) ∧
    ((excDiag info.rangeVal ex).message = ex.message
      ∧ (excDiag info.rangeVal ex).code = some ex.typeName
      ∧ (excDiag info.rangeVal ex).severity = .error
      ∧ (excDiag info.rangeVal ex).range = info.rangeVal) ∧
    ((importImports (n + 1) env st (pre ++ [.lib info args al] ++ post) bd
        true).libraries.map Prod.fst
        = libKeys st
          ++ (committedLibs ((pre ++ post).map (resolveOne true env bd st.resources))).map libKey) ∧
    ((importImports (n + 1) env st (pre ++ [.lib info args al] ++ post) bd
        true).resources.map Prod.fst
        = resKeys st
          ++ (committedRes ((pre ++ post).map (resolveOne true env bd st.resources))).map resKey) ∧
    ((importImports (n + 1) env st (pre ++ [.lib info args al] ++ post) bd
        true).varsEntries.map Prod.fst
        = varKeys st
          ++ (committedVars ((pre ++ post).map (resolveOne true env bd st.resources))).map varKey) ∧
    excDiag info.rangeVal ex ∈
      (importImports (n + 1) env st (pre ++ [.lib info args al] ++ post) bd
        true).diagnostics := by
  have hbad : resolveOne true env bd st.resources (.lib info args al)
      = ⟨none, [excDiag info.rangeVal ex]⟩ := by
    simp [resolveOne, hname, hfail]
  have houts : (pre ++ [Import.lib info args al] ++ post).map
      (resolveOne true env bd st.resources)
      = pre.map (resolveOne true env bd st.resources)
        ++ [⟨none, [excDiag info.rangeVal ex]⟩]
        ++ post.map (resolveOne true env bd st.resources) := by
    simp [List.map_append, hbad]
  have hcl : committedLibs ((pre ++ [Import.lib info args al] ++ post).map
      (resolveOne true env bd st.resources))
      = committedLibs ((pre ++ post).map (resolveOne true env bd st.resources)) := by
    rw [houts]
    simp [committedLibs, List.filterMap_append, List.map_append]
  have hcr : committedRes ((pre ++ [Import.lib info args al] ++ post).map
      (resolveOne true env bd st.resources))
      = committedRes ((pre ++ post).map (resolveOne true env bd st.resources)) := by
    rw [houts]
    simp [committedRes, List.filterMap_append, List.map_append]
  have hcv : committedVars ((pre ++ [Import.lib info args al] ++ post).map
      (resolveOne true env bd st.resources))
      = committedVars ((pre ++ post).map (resolveOne true env bd st.resources)) := by
    rw [houts]
    simp [committedVars, List.filterMap_append, List.map_append]
  have hclean1 : CleanBatch true
      { st with diagnostics := st.diagnostics
          ++ ((pre ++ [Import.lib info args al] ++ post).map
              (resolveOne true env bd st.resources)).flatMap (·.diags) }
      ((pre ++ [Import.lib info args al] ++ post).map
        (resolveOne true env bd st.resources)) :=
    ⟨hcl ▸ hclean.libsOk, hcr ▸ hclean.resOk, hcl ▸ hclean.libKeysOk,
     hcv ▸ hclean.varKeysOk, hcr ▸ hclean.resKeysOk, hcr ▸ hclean.resSourcesOk⟩
  have hrun : importImports (n + 1) env st (pre ++ [Import.lib info args al] ++ post) bd true =
      commitList n env true
        { st with diagnostics := st.diagnostics
            ++ ((pre ++ [Import.lib info args al] ++ post).map
                (resolveOne true env bd st.resources)).flatMap (·.diags) }
        ((pre ++ [Import.lib info args al] ++ post).map
          (resolveOne true env bd st.resources)) := by
    simp [importImports]
  rcases commitList_clean n env true
      ((pre ++ [Import.lib info args al] ++ post).map (resolveOne true env bd st.resources))
      _ hclean1 with ⟨D, hD⟩
  refine ⟨hbad, ⟨rfl, rfl, rfl, rfl⟩, ?_, ?_, ?_, ?_⟩
  · rw [hrun, hD, hcl]
    simp [libKeys, List.map_map, Function.comp]
  · rw [hrun, hD, hcr]
    simp [resKeys, List.map_map, Function.comp]
  · rw [hrun, hD, hcv]
    simp [varKeys, List.map_map, Function.comp]
  · rw [hrun, hD]
    have hmem : excDiag info.rangeVal ex ∈
        ((pre ++ [Import.lib info args al] ++ post).map
          (resolveOne true env bd st.resources)).flatMap (·.diags) := by
      rw [houts]
      refine List.mem_flatMap.mpr ⟨⟨none, [excDiag info.rangeVal ex]⟩, ?_, ?_⟩
      · simp
      · simp
    simp only []
    exact List.mem_append_left _ (List.mem_append_right _ hmem)

/-- Committing a resource entry whose source is already present (filter
non-empty, truthy first source, not the namespace's own file) at top level
re-inserts the entry under its key via the ordered-map assignment and
appends the "Resource already imported." information diagnostic
(lines 808-829). -/
theorem commitOne_resE_dup (n : Nat) (env : ImportsEnv) (st : NsCore)
    (e : ResourceEntry) (d : List Diagnostic) (s : String)
    (first : ResourceEntry) (restf : List ResourceEntry)
    (hs : e.libraryDoc.source = some s)
    (hfil : (st.resources.map (·.2)).filter
      (fun r => decide (r.libraryDoc.source = some s)) = first :: restf)
    (hself : s ≠ st.source)
    (htruthy : truthySource first.libraryDoc.source = true) :
    commitOne n env true st ⟨some (.resE e), d⟩ =
      { st with resources := odInsert st.resources (resKey e) e,
                diagnostics := st.diagnostics ++ [resourceAlreadyDiag e first] } := by
  rw [commitOne]
  simp [hs, hfil, hself, htruthy, resKey]

/-- Running two top-level resource imports that resolve to the same source
path and the same map key on a namespace with an empty resources map: the
first entry is inserted, then the duplicate re-inserts its own entry in
place under the same key — so exactly one entry remains, it is the second
import's entry, and the "Resource already imported." information
diagnostic is appended. -/
theorem duplicate_resource_run (n : Nat) (env : ImportsEnv) (st : NsCore) (bd : String)
    (imp1 imp2 : Import) (e1 e2 : ResourceEntry) (ds1 ds2 : List Diagnostic) (s : String)
    (hres0 : st.resources = [])
    (h1 : resolveOne true env bd st.resources imp1 = ⟨some (.resE e1), ds1⟩)
    (h2 : resolveOne true env bd st.resources imp2 = ⟨some (.resE e2), ds2⟩)
    (hs1 : e1.libraryDoc.source = some s)
    (hs2 : e2.libraryDoc.source = some s)
    (hself : s ≠ st.source)
    (hnz : s ≠ "")
    (hch : e1.imports = [])
    (hkey : resKey e2 = resKey e1) :
    (importImports (n + 1) env st [imp1, imp2] bd true).resources = [(resKey e1, e2)] ∧
    resourceAlreadyDiag e2 e1 ∈
      (importImports (n + 1) env st [imp1, imp2] bd true).diagnostics := by
  have hrun : importImports (n + 1) env st [imp1, imp2] bd true =
      commitOne n env true
        (commitOne n env true
          { st with diagnostics := st.diagnostics ++ (ds1 ++ ds2) }
          ⟨some (.resE e1), ds1⟩)
        ⟨some (.resE e2), ds2⟩ := by
    simp [importImports, commitList, h1, h2]
  have hA := commitOne_resE_maps n env true
    { st with diagnostics := st.diagnostics ++ (ds1 ++ ds2) } e1 ds1 s hs1 hself hch
    (by simp [resSources, hres0]) (by simp [resKeys, hres0])
  rw [hrun, hA]
  have hfil : (((
      { st with
          diagnostics := st.diagnostics ++ (ds1 ++ ds2),
          resources := st.resources ++ [(resKey e1, e1)] } : NsCore).resources.map (·.2)).filter
      (fun r => decide (r.libraryDoc.source = some s))) = [e1] := by
    simp [hres0, hs1]
  have hB := commitOne_resE_dup n env
    { st with
        diagnostics := st.diagnostics ++ (ds1 ++ ds2),
        resources := st.resources ++ [(resKey e1, e1)] }
    e2 ds2 s e1 [] hs2 hfil hself (by simp [truthySource, hs1, hnz])
  rw [hB]
  constructor
  · simp [odInsert, hres0, hkey]
  · simp

/-- C1 (amended): for a resource file imported twice at top level by
resolved source path under the same map key, after initialization the
resources map contains exactly one entry for that source path, and each
duplicate import emits a "Resource already imported." information
diagnostic; however the duplicate import re-inserts its own entry in place
of the first one, so the entry kept in the map is the LAST duplicate's,
not the first import's. -/
theorem c1_duplicate_resource_amended (n : Nat) (env : ImportsEnv) (st : NsCore) (bd : String)
    (imp1 imp2 : Import) (e1 e2 : ResourceEntry) (ds1 ds2 : List Diagnostic) (s : String)
    (hres0 : st.resources = [])
    (h1 : resolveOne true env bd st.resources imp1 = ⟨some (.resE e1), ds1⟩)
    (h2 : resolveOne true env bd st.resources imp2 = ⟨some (.resE e2), ds2⟩)
    (hs1 : e1.libraryDoc.source = some s) (hs2 : e2.libraryDoc.source = some s)
    (hself : s ≠ st.source) (hnz : s ≠ "") (hch : e1.imports = [])
    (hkey : resKey e2 = resKey e1) :
    (importImports (n + 1) env st [imp1, imp2] bd true).resources = [(resKey e1, e2)] ∧
    ((importImports (n + 1) env st [imp1, imp2] bd true).resources.map
        (fun p => p.2.libraryDoc.source)) = [some s] ∧
    resourceAlreadyDiag e2 e1 ∈
      (importImports (n + 1) env st [imp1, imp2] bd true).diagnostics ∧
    (resourceAlreadyDiag e2 e1).severity = .information := by
  have h := duplicate_resource_run n env st bd imp1 imp2 e1 e2 ds1 ds2 s
    hres0 h1 h2 hs1 hs2 hself hnz hch hkey
  refine ⟨h.1, ?_, h.2, rfl⟩
  rw [h.1]
  simp [hs2]

/-- The resource doc of the C1 scenario: file `a.resource` at
`/w/a.resource`, with one keyword. -/
def c1ADoc : LibraryDoc :=
  { name := "a", source := some "/w/a.resource", keywords := [("K", ⟨"K", "a"⟩)] }

/-- The imports-manager behaviour of the C1 scenario. -/
def c1Env : ImportsEnv where
  findFile := fun nm _ =>
    if nm = "a.resource" then .ok "/w/a.resource" else .error ⟨"DataError", "not found"⟩
  libDoc := fun _ _ _ => .error ⟨"DataError", "no lib"⟩
  resourceDoc := fun nm _ =>
    if nm = "a.resource" then .ok (c1ADoc, [], []) else .error ⟨"DataError", "no res"⟩
  variablesDoc := fun _ _ _ => .error ⟨"DataError", "no vars"⟩

/-- Statement range of the first `Resource    a.resource` import. -/
def c1R1 : Rng := ⟨⟨1, 0⟩, ⟨1, 10⟩⟩

/-- Statement range of the second, duplicate import. -/
def c1R2 : Rng := ⟨⟨2, 0⟩, ⟨2, 10⟩⟩

/-- The first resource import node. -/
def c1Imp1 : Import := .res ⟨some "a.resource", c1R1, "/w/suite.robot"⟩

/-- The duplicate resource import node. -/
def c1Imp2 : Import := .res ⟨some "a.resource", c1R2, "/w/suite.robot"⟩

/-- The fresh namespace state of the C1 scenario. -/
def c1St : NsCore := { source := "/w/suite.robot" }

/-- The entry the first import resolves to. -/
def c1E1 : ResourceEntry :=
  { name := "a", importName := "a.resource", libraryDoc := c1ADoc,
    importRange := c1R1, importSource := "/w/suite.robot" }

/-- The entry the duplicate import resolves to. -/
def c1E2 : ResourceEntry :=
  { name := "a", importName := "a.resource", libraryDoc := c1ADoc,
    importRange := c1R2, importSource := "/w/suite.robot" }

/-- C1 counterexample: at a concrete duplicate import, the one entry kept
in the resources map carries the SECOND import's range, not the first's —
so "the first import is kept ... and does not insert a further entry" is
false: the duplicate import's entry replaces the first one's. -/
theorem c1_duplicate_resource_counterexample :
    (importImports 1 c1Env c1St [c1Imp1, c1Imp2] "/w" true).resources.map
        (fun p => p.2.importRange) = [c1R2] ∧
    c1R1 ≠ c1R2 ∧
    resourceAlreadyDiag c1E2 c1E1 ∈
      (importImports 1 c1Env c1St [c1Imp1, c1Imp2] "/w" true).diagnostics := by
  have h := duplicate_resource_run 0 c1Env c1St "/w" c1Imp1 c1Imp2 c1E1 c1E2 [] []
    "/w/a.resource" rfl (by decide) (by decide) rfl rfl (by decide) (by decide) rfl rfl
  refine ⟨?_, by decide, h.2⟩
  rw [h.1]
  rfl

/-- Witness for the amended C1: the concrete duplicate-import run keeps
exactly the second entry under the shared key and emits the information
diagnostic. -/
theorem c1_duplicate_resource_amended_witness :
    (importImports 1 c1Env c1St [c1Imp1, c1Imp2] "/w" true).resources
      = [(resKey c1E1, c1E2)] ∧
    resourceAlreadyDiag c1E2 c1E1 ∈
      (importImports 1 c1Env c1St [c1Imp1, c1Imp2] "/w" true).diagnostics :=
  have h := c1_duplicate_resource_amended 0 c1Env c1St "/w" c1Imp1 c1Imp2 c1E1 c1E2 [] []
    "/w/a.resource" rfl (by decide) (by decide) rfl rfl (by decide) (by decide) rfl rfl
  ⟨h.1, h.2.2.1⟩

/-- The environment of the C5 witness: libraries `C` and `D`, resource
`a.resource`. -/
def c5Env : ImportsEnv where
  findFile := fun nm _ =>
    if nm = "a.resource" then .ok "/w/a.resource" else .error ⟨"DataError", "not found"⟩
  libDoc := fun nm _ _ =>
    if nm = "C" then .ok { name := "C", source := some "/w/c.py", keywords := [("KC", ⟨"KC", "C"⟩)] }
    else if nm = "D" then
      .ok { name := "D", source := some "/w/d.py", keywords := [("KD", ⟨"KD", "D"⟩)] }
    else .error ⟨"DataError", "no lib"⟩
  resourceDoc := fun nm _ =>
    if nm = "a.resource" then
      .ok ({ name := "a", source := some "/w/a.resource", keywords := [("K", ⟨"K", "a"⟩)] }, [], [])
    else .error ⟨"DataError", "no res"⟩
  variablesDoc := fun _ _ _ => .error ⟨"DataError", "no vars"⟩

/-- The default `BuiltIn` entry of the C5 witness. -/
def c5BuiltinEntry : LibraryEntry :=
  { name := "BuiltIn", importName := "BuiltIn",
    libraryDoc := { name := "BuiltIn", keywords := [("Log", ⟨"Log", "BuiltIn"⟩)] } }

/-- The pre-state of the C5 witness: the default `BuiltIn` entry present. -/
def c5St : NsCore :=
  { source := "/w/suite.robot", libraries := [("BuiltIn", c5BuiltinEntry)] }

/-- First import of the C5 witness: `Library    C`. -/
def c5ImpC : Import := .lib ⟨some "C", ⟨⟨1, 0⟩, ⟨1, 5⟩⟩, "/w/suite.robot"⟩ [] none

/-- Second import of the C5 witness: `Resource    a.resource`. -/
def c5ImpRes : Import := .res ⟨some "a.resource", ⟨⟨2, 0⟩, ⟨2, 10⟩⟩, "/w/suite.robot"⟩

/-- Third import of the C5 witness: `Library    D`. -/
def c5ImpD : Import := .lib ⟨some "D", ⟨⟨3, 0⟩, ⟨3, 5⟩⟩, "/w/suite.robot"⟩ [] none

/-- The resource entry the C5 witness's resource import resolves to. -/
def c5AEntry : ResourceEntry :=
  { name := "a", importName := "a.resource",
    libraryDoc := { name := "a", source := some "/w/a.resource", keywords := [("K", ⟨"K", "a"⟩)] },
    importRange := ⟨⟨2, 0⟩, ⟨2, 10⟩⟩, importSource := "/w/suite.robot" }

/-- Witness for C5: the three imports commit in source order — the
libraries map keys are `BuiltIn` (default), then `C`, then `D`, and the
resources map holds `a` — and a permuted completion schedule yields the
same gathered outcome at slot 0. -/
theorem c5_import_commit_source_order_witness :
    (importImports 1 c5Env c5St [c5ImpC, c5ImpRes, c5ImpD] "/w" true).libraries.map Prod.fst
      = ["BuiltIn", "C", "D"] ∧
    (importImports 1 c5Env c5St [c5ImpC, c5ImpRes, c5ImpD] "/w" true).resources.map Prod.fst
      = ["a"] ∧
    gatherSched (fun j => resolveOne true c5Env "/w" c5St.resources
        ([c5ImpC, c5ImpRes, c5ImpD].getD j (.res ⟨none, rngZero, ""⟩))) [2, 0, 1] 0
      = some (resolveOne true c5Env "/w" c5St.resources c5ImpC) := by
  have hclean : CleanBatch true c5St
      ([c5ImpC, c5ImpRes, c5ImpD].map (resolveOne true c5Env "/w" c5St.resources)) := by
    refine ⟨?_, ?_, ?_, ?_, ?_, ?_⟩
    · decide
    · intro e he
      have hcr : committedRes ([c5ImpC, c5ImpRes, c5ImpD].map
          (resolveOne true c5Env "/w" c5St.resources)) = [c5AEntry] := by decide
      rw [hcr] at he
      have he' := List.mem_singleton.mp he
      subst he'
      exact ⟨rfl, "/w/a.resource", rfl, by decide⟩
    · decide
    · decide
    · decide
    · decide
  have h := c5_import_commit_source_order 0 c5Env c5St [c5ImpC, c5ImpRes, c5ImpD] "/w" hclean
  refine ⟨?_, ?_, ?_⟩
  · rw [h.1]
    decide
  · rw [h.2.1]
    decide
  · exact h.2.2.2 [2, 0, 1] (by decide) 0 (by decide)

/-- The environment of the C6 witness: libraries `C` and `D` resolve,
library `X` raises an import error. -/
def c6Env : ImportsEnv where
  findFile := fun _ _ => .error ⟨"DataError", "not found"⟩
  libDoc := fun nm _ _ =>
    if nm = "C" then .ok { name := "C", source := some "/w/c.py", keywords := [("KC", ⟨"KC", "C"⟩)] }
    else if nm = "D" then
      .ok { name := "D", source := some "/w/d.py", keywords := [("KD", ⟨"KD", "D"⟩)] }
    else .error ⟨"ImportError", "Importing test library 'X' failed"⟩
  resourceDoc := fun _ _ => .error ⟨"DataError", "no res"⟩
  variablesDoc := fun _ _ _ => .error ⟨"DataError", "no vars"⟩

/-- The pre-state of the C6 witness. -/
def c6St : NsCore := { source := "/w/suite.robot" }

/-- The statement info of the failing `Library    X` import. -/
def c6InfoX : ImportInfo := ⟨some "X", ⟨⟨2, 0⟩, ⟨2, 5⟩⟩, "/w/suite.robot"⟩

/-- `Library    C` of the C6 witness. -/
def c6ImpC : Import := .lib ⟨some "C", ⟨⟨1, 0⟩, ⟨1, 5⟩⟩, "/w/suite.robot"⟩ [] none

/-- `Library    D` of the C6 witness. -/
def c6ImpD : Import := .lib ⟨some "D", ⟨⟨3, 0⟩, ⟨3, 5⟩⟩, "/w/suite.robot"⟩ [] none

/-- Witness for C6: with the failing `X` between `C` and `D`, both good
imports commit, `X` contributes no entry, and its single error diagnostic
(message and code from the exception) is appended. -/
theorem c6_failed_import_local_recovery_witness :
    (importImports 1 c6Env c6St [c6ImpC, .lib c6InfoX [] none, c6ImpD] "/w"
        true).libraries.map Prod.fst = ["C", "D"] ∧
    excDiag c6InfoX.rangeVal ⟨"ImportError", "Importing test library 'X' failed"⟩ ∈
      (importImports 1 c6Env c6St [c6ImpC, .lib c6InfoX [] none, c6ImpD] "/w"
        true).diagnostics := by
  have hclean : CleanBatch true c6St
      (([c6ImpC] ++ [c6ImpD]).map (resolveOne true c6Env "/w" c6St.resources)) := by
    refine ⟨?_, ?_, ?_, ?_, ?_, ?_⟩
    · decide
    · intro e he
      have hcr : committedRes (([c6ImpC] ++ [c6ImpD]).map
          (resolveOne true c6Env "/w" c6St.resources)) = [] := by decide
      rw [hcr] at he
      cases he
    · decide
    · decide
    · decide
    · decide
  have h := c6_failed_import_local_recovery 0 c6Env c6St "/w" [c6ImpC] [c6ImpD]
    c6InfoX [] none "X" ⟨"ImportError", "Importing test library 'X' failed"⟩
    rfl rfl hclean
  refine ⟨?_, h.2.2.2.2.2⟩
  rw [show [c6ImpC, Import.lib c6InfoX [] none, c6ImpD]
      = [c6ImpC] ++ [Import.lib c6InfoX [] none] ++ [c6ImpD] from rfl]
  rw [h.2.2.1]
  decide

/-- The custom library of the C4 witness: `MyOs` exposes `Copy File`. -/
def c4CustomEntry : LibraryEntry :=
  { name := "MyOs", importName := "MyOs",
    libraryDoc := { name := "MyOs", keywords := [("Copy File", ⟨"Copy File", "MyOs"⟩)] } }

/-- The standard library of the C4 witness: `OperatingSystem` also exposes
`Copy File`. -/
def c4StdEntry : LibraryEntry :=
  { name := "OperatingSystem", importName := "OperatingSystem",
    libraryDoc :=
      { name := "OperatingSystem",
        keywords := [("Copy File", ⟨"Copy File", "OperatingSystem"⟩)] } }

/-- The finder context of the C4 witness scenario. -/
def c4Ctx : FinderCtx :=
  { selfLibraryDoc := { name := "suite" },
    libraries := [("MyOs", c4CustomEntry), ("OperatingSystem", c4StdEntry)] }

/-- Witness for C4 (the claim's own example): calling `Copy File` returns
`MyOs.Copy File` together with the warning naming both libraries. -/
theorem c4_stdlib_conflict_warning_witness :
    findKeyword c4Ctx "Copy File" =
      (some ⟨"Copy File", "MyOs"⟩,
        [⟨createConflictMsg (c4CustomEntry, ⟨"Copy File", "MyOs"⟩)
            (c4StdEntry, ⟨"Copy File", "OperatingSystem"⟩), .warning, some "KeywordError"⟩]) :=
  (c4_stdlib_conflict_warning c4Ctx "Copy File"
      (c4CustomEntry, ⟨"Copy File", "MyOs"⟩) (c4StdEntry, ⟨"Copy File", "OperatingSystem"⟩)
      (by decide) (by decide) (by decide) (by decide) (by decide) (by decide)).2
    (by decide) (by decide)

end RobotCode
